import Mathlib

/-!
Verification of the AsyncIO event reactor of CommonUtilities (src/AsyncIO.c)
against its natural-language specification.

The C source is shallowly embedded: each definition below mirrors one C
function or data structure, with the file and function named in its doc
comment.  Machine integers are modelled as Nat with an explicit mod 2^32
where the source uses uint32_t arithmetic that can wrap.  Calls into the
kernel (read, write, select, kevent) are modelled by explicit result
scripts supplied by the environment; user callbacks are modelled as lists
of reactor-API commands that are interpreted against the reactor state.
-/

namespace AsyncSpec

/-! ## Constants

Handle-type tags from AsyncIO.c and the errno / fcntl values of the
POSIX targets the file compiles for (the concrete numeric values are the
Darwin ones; only their mutual distinctness matters to the theorems). -/

def kAIO_TYPE_LISTENER : Nat := 1

def kAIO_TYPE_CONNECTION : Nat := 2

def kAIO_TYPE_TIMER : Nat := 3

def ENOENT : Nat := 2

def EIO : Nat := 5

def ENOTTY : Nat := 25

/-- On the targets in question EAGAIN and EWOULDBLOCK share one value. -/
def EAGAIN : Nat := 35

def EWOULDBLOCK : Nat := 35

def O_NONBLOCK : Nat := 4

/-- Model of struct timeval as filled in by the source (both fields are
set from nonnegative millisecond quantities, so Nat suffices). -/
structure Timeval where
  tv_sec : Nat
  tv_usec : Nat
deriving DecidableEq

/-! ## Software timer list (level-style / select backend)

AsyncIO.c keeps armed timers in a singly linked list threaded through the
handles (fields next_fire_time and next_timer, global head enabled_timers).
For the scan functions we represent an acyclic list by the sequence of its
nodes, each node a pair (timer id, next_fire_time).  The cyclic case needed
for claim C10 is modelled separately by TimerHeap below. -/

/-- The scan loop of AsyncIO_GetNextTimerFireTime (src/AsyncIO.c lines
288-298): walk the list keeping the timer with the strictly smallest
next_fire_time, starting from the sentinel 0xFFFFFFFF. -/
def nextTimerScan : List (Nat × Nat) → Option Nat → Nat → Option Nat × Nat
  | [], best, bestFire => (best, bestFire)
  | (t, ft) :: rest, best, bestFire =>
    if ft < bestFire then nextTimerScan rest (some t) ft
    else nextTimerScan rest best bestFire

/-- The clamp of AsyncIO_GetNextTimerFireTime (lines 300-314): a deadline
already past yields the zero timeval, otherwise the remaining milliseconds
are split into tv_sec / tv_usec. -/
def fireTimeToTv (now fire : Nat) : Timeval :=
  if now > fire then ⟨0, 0⟩
  else ⟨(fire - now) / 1000, ((fire - now) % 1000) * 1000⟩

/-- AsyncIO_GetNextTimerFireTime (src/AsyncIO.c lines 283-319): scan for
the minimum deadline; when a winner exists return it together with the
clamped remaining duration.  now is MillisecondCounter(). -/
def AsyncIO_GetNextTimerFireTime (now : Nat) (timers : List (Nat × Nat)) :
    Option (Nat × Timeval) :=
  match nextTimerScan timers none 4294967295 with
  | (some t, ft) => some (t, fireTimeToTv now ft)
  | (none, _) => none

/-- The select-backend branch of AsyncIO_EnableTimer (src/AsyncIO.c lines
344-349) on the list-of-nodes view: set the deadline to now + ms (uint32
wrap) and push onto the head.  No removal of an existing membership is
performed (see TimerHeap for the aliasing consequences). -/
def AsyncIO_EnableTimer_list (timer ms now : Nat) (timers : List (Nat × Nat)) :
    List (Nat × Nat) :=
  (timer, (now + ms) % 4294967296) :: timers

/-- The select-backend branch of AsyncIO_DisableTimer (src/AsyncIO.c lines
378-409): if the list is empty the require fails (result -1, modelled as
none); if the head is the timer, pop it; otherwise scan, splicing the timer
out when found and failing (none) when the scan hits the end of the list.
A some result is the updated list; a none result means the call returned -1
and left the list unmodified. -/
def AsyncIO_DisableTimer_sel (timer : Nat) : List (Nat × Nat) → Option (List (Nat × Nat))
  | [] => none
  | t :: rest =>
    if t.1 = timer then some rest
    else match AsyncIO_DisableTimer_sel timer rest with
      | some rest2 => some (t :: rest2)
      | none => none

/-- The kqueue branch of AsyncIO_DisableTimer (src/AsyncIO.c lines 362-376):
issue an EV_DELETE for the timer and require (err == 0 || errno == ENOENT).
keventErr is none when the kevent call succeeded and some errno when it
failed.  Return value is the result of the C function (0 or -1). -/
def AsyncIO_DisableTimer_kq (keventErr : Option Nat) : Int :=
  match keventErr with
  | none => 0
  | some e => if e = ENOENT then 0 else -1

/-! ## The timer list as a pointer structure (claim C10)

The list view above is only adequate while the linked structure is acyclic.
TimerHeap models the pointers themselves: enabled_timers is the global head
and next_timer the per-handle link field. -/

structure TimerHeap where
  enabled_timers : Option Nat
  next_timer : Nat → Option Nat
  next_fire_time : Nat → Nat

/-- The select-backend branch of AsyncIO_EnableTimer (src/AsyncIO.c lines
344-349) on the pointer view: timer.next_fire_time := now + ms (uint32),
timer.next_timer := enabled_timers, enabled_timers := timer. -/
def AsyncIO_EnableTimer_heap (timer ms now : Nat) (h : TimerHeap) : TimerHeap where
  enabled_timers := some timer
  next_timer := fun u => if u = timer then h.enabled_timers else h.next_timer u
  next_fire_time := fun u =>
    if u = timer then (now + ms) % 4294967296 else h.next_fire_time u

/-- Whether the scan loop of AsyncIO_GetNextTimerFireTime (while tio != NULL,
tio := tio.next_timer) starting from pointer p reaches NULL within the given
number of steps.  The loop terminates iff this holds for some fuel. -/
def walkEnds (next : Nat → Option Nat) : Option Nat → Nat → Bool
  | none, _ => true
  | some _, 0 => false
  | some t, fuel + 1 => walkEnds next (next t) fuel

/-- Whether the interior scan loop of AsyncIO_DisableTimer (src/AsyncIO.c
lines 394-404), entered when the head is not the sought timer, finishes
within the given number of steps when started at node tio: it stops when
tio.next_timer is the target (splice) or NULL (require failure). -/
def disableScanEnds (next : Nat → Option Nat) (target : Nat) : Nat → Nat → Bool
  | _, 0 => false
  | tio, fuel + 1 =>
    match next tio with
    | none => true
    | some u => if u = target then true else disableScanEnds next target u fuel

/-! ## Wait-timeout selection in AsyncIO_WaitForEvents (claim C5)

src/AsyncIO.c lines 769 and 791-807 (select backend).  The local variable
to (struct timeval pointer) is declared without an initializer at line 769
and is assigned only inside the branch taken when a timer is armed; when no
timer is armed the function reads the uninitialized pointer, which is
modelled by the toInitial parameter (the junk left on the stack).  The
sub-second comparison in the source reads a field named tv_nsec of the two
timevals; AsyncIO_GetNextTimerFireTime fills tv_usec, and we model the
comparison on the sub-second field it filled. -/
def effectiveWaitTimeout (timeout : Option Timeval) (now : Nat)
    (timers : List (Nat × Nat)) (toInitial : Option Timeval) : Option Timeval :=
  match AsyncIO_GetNextTimerFireTime now timers with
  | some (_, aioTimeout) =>
    match timeout with
    | none => some aioTimeout
    | some t =>
      if aioTimeout.tv_sec > t.tv_sec ∨
          (aioTimeout.tv_sec = t.tv_sec ∧ aioTimeout.tv_usec > t.tv_usec)
      then some t
      else some aioTimeout
  | none => toInitial

/-! ## Descriptor-taking constructors (claim C6)

AsyncIO_NewConnectionListener (src/AsyncIO.c lines 204-258) and
AsyncIO_NewConnection (lines 504-542).  The fcntl results are environment
inputs: getfl is none when F_GETFL returned -1 and some flags otherwise;
setflErr is none when F_SETFL succeeded and some errno when it failed.
The Bool result is whether construction succeeds (a non-NULL handle). -/

/-- The F_SETFL argument computed by both constructors: flags | O_NONBLOCK
(src/AsyncIO.c lines 221 and 521). -/
def setflArgFlags (flags : Nat) : Nat := flags ||| O_NONBLOCK

/-- AsyncIO_NewConnectionListener: require flags != -1, require err == 0
after F_SETFL (no errno exemption), then require the kqueue registration
to succeed (kqAddOk). -/
def AsyncIO_NewConnectionListener (getfl : Option Nat) (setflErr : Option Nat)
    (kqAddOk : Bool) : Bool :=
  match getfl with
  | none => false
  | some _ =>
    match setflErr with
    | some _ => false
    | none => kqAddOk

/-- AsyncIO_NewConnection: require flags != -1; after F_SETFL an error with
errno == ENOTTY is forgiven (err is reset to 0, line 527), any other error
fails construction; no backend registration is performed at construction. -/
def AsyncIO_NewConnection (getfl : Option Nat) (setflErr : Option Nat) : Bool :=
  match getfl with
  | none => false
  | some _ =>
    match setflErr with
    | some e => e = ENOTTY
    | none => true

/-- The reading of claim C6 under test: a flag-setting failure with an errno
other than ENOTTY fails either constructor, and a flag-setting failure with
errno ENOTTY is tolerated by either constructor (construction proceeds). -/
def c6ClaimStatement : Prop :=
  (∀ fl e ok, e ≠ ENOTTY → AsyncIO_NewConnectionListener (some fl) (some e) ok = false) ∧
  (∀ fl e, e ≠ ENOTTY → AsyncIO_NewConnection (some fl) (some e) = false) ∧
  (∀ fl, AsyncIO_NewConnectionListener (some fl) (some ENOTTY) true = true) ∧
  (∀ fl, AsyncIO_NewConnection (some fl) (some ENOTTY) = true)

/-- The reading of claim C8 under test: on the select backend disabling an
absent timer is a failure, and on the kqueue backend the call equally does
not behave as a successful no-op when the kernel reports the timer absent
(EV_DELETE failing with ENOENT). -/
def c8ClaimStatement : Prop :=
  (∀ t l, (∀ p ∈ l, p.1 ≠ t) → AsyncIO_DisableTimer_sel t l = none) ∧
  AsyncIO_DisableTimer_kq (some ENOENT) ≠ 0

/-! ## The redirect pump (claims C1, C2)

redirect_Pump (src/AsyncIO.c lines 1378-1457) over struct
OpaqueAsyncIORedirect (lines 1354-1376).  The kernel descriptors are
modelled by result scripts: each call of read() consumes one ReadRes and
each call of write() one WriteRes. -/

/-- Result of one read(fd_in, buffer, 512) call: rerr e is -1 with errno e,
rok data is the byte list placed at the start of the buffer (rok [] is a
zero-length read). -/
inductive ReadRes
  | rerr (e : Nat)
  | rok (data : List Nat)
deriving DecidableEq

/-- Result of one write(fd_out, buffer, num_in_buffer) call: werr e is -1
with errno e, wok k means the kernel accepted the first k bytes handed to
it (at most num_in_buffer). -/
inductive WriteRes
  | werr (e : Nat)
  | wok (k : Nat)
deriving DecidableEq

/-- Notifications the redirect machinery reports to its owner (the
kAIO_REDIRECT_* events of AsyncIO.h that redirect_Pump itself can emit). -/
inductive RedirNote
  | inputError
  | outputError
  | dataWritten
deriving DecidableEq

/-- The pump-relevant fields of struct OpaqueAsyncIORedirect plus the
observable interaction record: remaining kernel scripts, notifications
emitted, every byte handed to and accepted by write(), the number of
read()/write() calls issued, and whether readability/writability
notification was armed on suspension. -/
structure RedirSt where
  state : Nat
  buffer : List Nat
  num_in_buffer : Nat
  reads : List ReadRes
  writes : List WriteRes
  notes : List RedirNote
  sent : List Nat
  readCalls : Nat
  writeCalls : Nat
  armedRead : Bool
  armedWrite : Bool
deriving DecidableEq

def REDIR_STATE_WAITING_FOR_DATA : Nat := 1

def REDIR_STATE_SENDING : Nat := 2

/-- redirect_Pump (src/AsyncIO.c lines 1378-1457).  The while (!done) loop
is given explicit fuel; every exit of the C loop returns the state before
the fuel is exhausted in the runs below.  Faithful points to note:
in the WAITING_FOR_DATA read-error case with errno other than EWOULDBLOCK
the source emits kAIO_REDIRECT_INPUT_ERROR_EVENT and falls through to the
next loop iteration without setting done; in the SENDING partial-write case
the source moves the unsent remainder to the buffer start but leaves
num_in_buffer unchanged (lines 1434-1441). -/
def redirect_Pump : Nat → RedirSt → RedirSt
  | 0, p => p
  | fuel + 1, p =>
    if p.state = REDIR_STATE_WAITING_FOR_DATA then
      match p.reads with
      | [] => p
      | r :: restReads =>
        let q : RedirSt := { p with reads := restReads, readCalls := p.readCalls + 1 }
        match r with
        | .rerr e =>
          if e = EWOULDBLOCK then { q with armedRead := true }
          else redirect_Pump fuel { q with notes := q.notes ++ [.inputError] }
        | .rok data =>
          if data.length = 0 then q
          else
            let d := data.take 512
            redirect_Pump fuel
              { q with
                buffer := d ++ q.buffer.drop d.length
                num_in_buffer := d.length
                state := REDIR_STATE_SENDING }
    else if p.state = REDIR_STATE_SENDING then
      match p.writes with
      | [] => p
      | w :: restWrites =>
        let q : RedirSt := { p with writes := restWrites, writeCalls := p.writeCalls + 1 }
        match w with
        | .werr e =>
          if e = EWOULDBLOCK ∨ e = EAGAIN then { q with armedWrite := true }
          else redirect_Pump fuel { q with notes := q.notes ++ [.outputError] }
        | .wok k =>
          let numOut := min k q.num_in_buffer
          let q := { q with sent := q.sent ++ q.buffer.take numOut }
          if numOut < q.num_in_buffer then
            let remaining := q.num_in_buffer - numOut
            redirect_Pump fuel
              { q with
                buffer := (q.buffer.drop numOut).take remaining ++ q.buffer.drop remaining }
          else
            redirect_Pump fuel
              { q with
                notes := q.notes ++ [.dataWritten]
                state := REDIR_STATE_WAITING_FOR_DATA }
    else p

/-- Fresh pump state over the given kernel scripts: state
REDIR_STATE_WAITING_FOR_DATA, zeroed 512-byte buffer (calloc), empty
interaction record. -/
def redirInit (reads : List ReadRes) (writes : List WriteRes) : RedirSt where
  state := REDIR_STATE_WAITING_FOR_DATA
  buffer := List.replicate 512 0
  num_in_buffer := 0
  reads := reads
  writes := writes
  notes := []
  sent := []
  readCalls := 0
  writeCalls := 0
  armedRead := false
  armedWrite := false

/-! ## Event kinds and callback commands (claims C3, C4, C9)

Event kinds are the kAIO_* callback event codes of AsyncIO.h.  A user
callback is modelled as the list of reactor-API calls it performs, each
interpreted against the reactor state; this covers the reentrant calls the
specification discusses (releasing a handle, re-arming notification). -/

inductive EvKind
  | kAIO_NEW_CONNECTION
  | kAIO_DATA_AVAILABLE
  | kAIO_READY_FOR_WRITE
  | kAIO_CONNECTION_CLOSED
  | kAIO_TIMER_FIRED
  | kAIO_PROCESS_EXITED
  | kAIO_SIGNAL_DELIVERED
deriving DecidableEq

/-- Reactor-API calls a callback may perform while dispatching. -/
inductive Cmd
  | release (h : Nat)
  | notifyRead (h : Nat)
  | notifyWrite (h : Nat)
deriving DecidableEq

/-! ## The kqueue (edge-style) backend state (claims C3, C4) -/

/-- The kqueue-backend reactor state: the set of live (allocated) handles,
the read/write filters currently registered in the kernel queue (all are
registered EV_ONESHOT), the per-handle notifyOnRead/notifyOnWrite flags
(as the set of handles whose flag is true), and the global anioInProgress
marker (src/AsyncIO.c line 99).  Handles are identified with their
descriptors. -/
structure KqSys where
  live : Finset Nat
  kqRead : Finset Nat
  kqWrite : Finset Nat
  notifyOnRead : Finset Nat
  notifyOnWrite : Finset Nat
  anioInProgress : Option Nat
deriving DecidableEq

/-- AsyncIO_Release on the kqueue backend (src/AsyncIO.c lines 128-202):
EV_DELETE any registered read/write filter, clear anioInProgress when it
names this handle (lines 190-193) and free the handle. -/
def kq_Release (h : Nat) (s : KqSys) : KqSys where
  live := s.live.erase h
  kqRead := s.kqRead.erase h
  kqWrite := s.kqWrite.erase h
  notifyOnRead := s.notifyOnRead.erase h
  notifyOnWrite := s.notifyOnWrite.erase h
  anioInProgress := if s.anioInProgress = some h then none else s.anioInProgress

/-- AsyncIO_NotifyOnReadability on the kqueue backend (src/AsyncIO.c lines
544-585): register an EV_ADD | EV_ONESHOT read filter and set the
notifyOnRead flag. -/
def kq_NotifyOnReadability (h : Nat) (s : KqSys) : KqSys :=
  { s with kqRead := insert h s.kqRead, notifyOnRead := insert h s.notifyOnRead }

/-- AsyncIO_NotifyOnWritability on the kqueue backend (src/AsyncIO.c lines
587-624). -/
def kq_NotifyOnWritability (h : Nat) (s : KqSys) : KqSys :=
  { s with kqWrite := insert h s.kqWrite, notifyOnWrite := insert h s.notifyOnWrite }

/-- Effect of one reactor-API call on the kqueue backend state. -/
def kqApplyCmd : Cmd → KqSys → KqSys
  | .release h, s => kq_Release h s
  | .notifyRead h, s => kq_NotifyOnReadability h s
  | .notifyWrite h, s => kq_NotifyOnWritability h s

/-- Interpret the API calls a callback performs, in order. -/
def kqInterp : List Cmd → KqSys → KqSys
  | [], s => s
  | c :: cs, s => kqInterp cs (kqApplyCmd c s)

/-- The filters of the kevent structure that AsyncIO_Run dispatches on. -/
inductive KFilter
  | EVFILT_READ
  | EVFILT_WRITE
  | EVFILT_TIMER
  | EVFILT_PROC
  | EVFILT_SIGNAL
deriving DecidableEq

/-- One event returned by kevent: the originating handle (kv.udata), the
filter, the EV_EOF flag, the handle type tag (anio.type), and the behavior
of the handle callback, given as the API calls it performs for each event
kind it might receive during this dispatch. -/
structure KqEvent where
  handle : Nat
  filter : KFilter
  eof : Bool
  type : Nat
  cb : EvKind → List Cmd

/-- The reactor state a connection handle sees at entry of its
kAIO_DATA_AVAILABLE callback for a kqueue read event: the EV_ONESHOT read
registration was consumed by the kevent retrieval, anioInProgress was set
and notifyOnRead was cleared (src/AsyncIO.c lines 1266-1280). -/
def kqConnReadPre (h : Nat) (s : KqSys) : KqSys :=
  { s with
    kqRead := s.kqRead.erase h
    anioInProgress := some h
    notifyOnRead := s.notifyOnRead.erase h }

/-- The reactor state a handle sees at entry of its kAIO_READY_FOR_WRITE
callback for a kqueue write event (src/AsyncIO.c lines 1285-1289). -/
def kqWritePre (h : Nat) (s : KqSys) : KqSys :=
  { s with
    kqWrite := s.kqWrite.erase h
    anioInProgress := some h
    notifyOnWrite := s.notifyOnWrite.erase h }

/-- One iteration of the kqueue dispatch loop of AsyncIO_Run after kevent
returned one event (src/AsyncIO.c lines 1266-1334; the batch loop of
AsyncIO_ProcessEvents lines 928-1005 performs the same steps per event).
Retrieval of the event consumes the EV_ONESHOT registration (kernel
contract of EV_ONESHOT, under which all filters here are registered).
Then: anioInProgress := handle; dispatch on the filter, clearing
notifyOnRead/notifyOnWrite before the callback for connection read / any
write; afterwards, when EV_EOF accompanied a read event, deliver
kAIO_CONNECTION_CLOSED only if anioInProgress still names this handle
(require_continue_quiet, line 1321/990); finally clear anioInProgress.
The returned list logs every callback invocation as (event kind, handle):
each entry is one access to the handle. -/
def kqProcessEvent (ev : KqEvent) (s : KqSys) : KqSys × List (EvKind × Nat) :=
  let s0 :=
    match ev.filter with
    | .EVFILT_READ => { s with kqRead := s.kqRead.erase ev.handle }
    | .EVFILT_WRITE => { s with kqWrite := s.kqWrite.erase ev.handle }
    | _ => s
  let s1 := { s0 with anioInProgress := some ev.handle }
  let main : KqSys × List (EvKind × Nat) :=
    match ev.filter with
    | .EVFILT_READ =>
      if ev.type = kAIO_TYPE_LISTENER then
        (kqInterp (ev.cb .kAIO_NEW_CONNECTION) s1, [(.kAIO_NEW_CONNECTION, ev.handle)])
      else if ev.type = kAIO_TYPE_CONNECTION then
        (kqInterp (ev.cb .kAIO_DATA_AVAILABLE) (kqConnReadPre ev.handle s),
          [(.kAIO_DATA_AVAILABLE, ev.handle)])
      else (s1, [])
    | .EVFILT_WRITE =>
      (kqInterp (ev.cb .kAIO_READY_FOR_WRITE) (kqWritePre ev.handle s),
        [(.kAIO_READY_FOR_WRITE, ev.handle)])
    | .EVFILT_TIMER =>
      (kqInterp (ev.cb .kAIO_TIMER_FIRED) s1, [(.kAIO_TIMER_FIRED, ev.handle)])
    | .EVFILT_PROC =>
      (kqInterp (ev.cb .kAIO_PROCESS_EXITED) s1, [(.kAIO_PROCESS_EXITED, ev.handle)])
    | .EVFILT_SIGNAL =>
      (kqInterp (ev.cb .kAIO_SIGNAL_DELIVERED) s1, [(.kAIO_SIGNAL_DELIVERED, ev.handle)])
  let withEof : KqSys × List (EvKind × Nat) :=
    if ev.eof then
      match ev.filter with
      | .EVFILT_READ =>
        if main.1.anioInProgress = some ev.handle then
          (kqInterp (ev.cb .kAIO_CONNECTION_CLOSED) main.1,
            main.2 ++ [(.kAIO_CONNECTION_CLOSED, ev.handle)])
        else main
      | _ => main
    else main
  ({ withEof.1 with anioInProgress := none }, withEof.2)

/-- The callback invocation logged by the filter dispatch of one kqueue
event, before any EV_EOF follow-up (used to characterize the logs of
kqProcessEvent). -/
def kqMainLog (ev : KqEvent) : List (EvKind × Nat) :=
  match ev.filter with
  | .EVFILT_READ =>
    if ev.type = kAIO_TYPE_LISTENER then [(.kAIO_NEW_CONNECTION, ev.handle)]
    else if ev.type = kAIO_TYPE_CONNECTION then [(.kAIO_DATA_AVAILABLE, ev.handle)]
    else []
  | .EVFILT_WRITE => [(.kAIO_READY_FOR_WRITE, ev.handle)]
  | .EVFILT_TIMER => [(.kAIO_TIMER_FIRED, ev.handle)]
  | .EVFILT_PROC => [(.kAIO_PROCESS_EXITED, ev.handle)]
  | .EVFILT_SIGNAL => [(.kAIO_SIGNAL_DELIVERED, ev.handle)]

/-- Run a sequence of kevent-returned events through the dispatch loop,
concatenating the invocation logs. -/
def kqRunTrace : List KqEvent → KqSys → KqSys × List (EvKind × Nat)
  | [], s => (s, [])
  | ev :: evs, s =>
    let r1 := kqProcessEvent ev s
    let r2 := kqRunTrace evs r1.1
    (r2.1, r1.2 ++ r2.2)

/-- Kernel-side well-formedness of an event sequence: kevent only reports
filters that are currently registered in the queue. -/
def kqWF : List KqEvent → KqSys → Bool
  | [], _ => true
  | ev :: evs, s =>
    (match ev.filter with
     | .EVFILT_READ => decide (ev.handle ∈ s.kqRead)
     | .EVFILT_WRITE => decide (ev.handle ∈ s.kqWrite)
     | _ => true) &&
    kqWF evs (kqProcessEvent ev s).1

/-- No callback run during the trace ever calls AsyncIO_NotifyOnReadability
on handle f. -/
def kqNoRearmRead (f : Nat) (evs : List KqEvent) : Prop :=
  ∀ ev ∈ evs, ∀ k, Cmd.notifyRead f ∉ ev.cb k

/-- No callback run during the trace ever calls AsyncIO_NotifyOnWritability
on handle f. -/
def kqNoRearmWrite (f : Nat) (evs : List KqEvent) : Prop :=
  ∀ ev ∈ evs, ∀ k, Cmd.notifyWrite f ∉ ev.cb k

/-! ## The select (level-style) backend state (claims C4, C9) -/

/-- The select-backend reactor state: live handles, the global fd_sets
anioReadSet / anioWriteSet (src/AsyncIO.c lines 106-107), the per-handle
notify flags, the armed-timer list and the anioInProgress marker.  Handles
are identified with their descriptors (lwip_socket_get_userdata). -/
structure SelSys where
  live : Finset Nat
  anioReadSet : Finset Nat
  anioWriteSet : Finset Nat
  notifyOnRead : Finset Nat
  notifyOnWrite : Finset Nat
  enabled_timers : List (Nat × Nat)
  anioInProgress : Option Nat
deriving DecidableEq

/-- AsyncIO_Release on the select backend (src/AsyncIO.c lines 178-195):
FD_CLR from both fd_sets, clear anioInProgress when it names this handle,
free the handle. -/
def sel_Release (h : Nat) (s : SelSys) : SelSys where
  live := s.live.erase h
  anioReadSet := s.anioReadSet.erase h
  anioWriteSet := s.anioWriteSet.erase h
  notifyOnRead := s.notifyOnRead.erase h
  notifyOnWrite := s.notifyOnWrite.erase h
  enabled_timers := s.enabled_timers
  anioInProgress := if s.anioInProgress = some h then none else s.anioInProgress

/-- AsyncIO_NotifyOnReadability on the select backend (src/AsyncIO.c lines
572-580): FD_SET into anioReadSet and set the flag. -/
def sel_NotifyOnReadability (h : Nat) (s : SelSys) : SelSys :=
  { s with anioReadSet := insert h s.anioReadSet, notifyOnRead := insert h s.notifyOnRead }

/-- AsyncIO_NotifyOnWritability on the select backend (src/AsyncIO.c lines
611-618). -/
def sel_NotifyOnWritability (h : Nat) (s : SelSys) : SelSys :=
  { s with anioWriteSet := insert h s.anioWriteSet, notifyOnWrite := insert h s.notifyOnWrite }

/-- Effect of one reactor-API call on the select backend state. -/
def selApplyCmd : Cmd → SelSys → SelSys
  | .release h, s => sel_Release h s
  | .notifyRead h, s => sel_NotifyOnReadability h s
  | .notifyWrite h, s => sel_NotifyOnWritability h s

/-- Interpret the API calls a callback performs, in order. -/
def selInterp : List Cmd → SelSys → SelSys
  | [], s => s
  | c :: cs, s => selInterp cs (selApplyCmd c s)

/-- The reactor state a connection handle sees at entry of its
kAIO_DATA_AVAILABLE callback in the select dispatch loop: the descriptor
was FD_CLRed from anioReadSet, anioInProgress was set and notifyOnRead was
cleared, all before the callback (src/AsyncIO.c lines 886-902). -/
def selConnReadPre (i : Nat) (s : SelSys) : SelSys :=
  { s with
    anioReadSet := s.anioReadSet.erase i
    anioInProgress := some i
    notifyOnRead := s.notifyOnRead.erase i }

/-- The reactor state a handle sees at entry of its kAIO_READY_FOR_WRITE
callback in the select dispatch loop (src/AsyncIO.c lines 907-919). -/
def selWritePre (i : Nat) (s : SelSys) : SelSys :=
  { s with
    anioWriteSet := s.anioWriteSet.erase i
    anioInProgress := some i
    notifyOnWrite := s.notifyOnWrite.erase i }

/-- Handling of one read-ready descriptor in the select dispatch loop
(src/AsyncIO.c lines 886-905 in AsyncIO_ProcessEvents, identically lines
1164-1183 in AsyncIO_Run): FD_CLR the descriptor from anioReadSet before
the callback, set anioInProgress, then dispatch by handle type — listener
gets kAIO_NEW_CONNECTION, connection gets notifyOnRead cleared and
kAIO_DATA_AVAILABLE, other types get no callback — and clear
anioInProgress. -/
def selReadReady (i : Nat) (ty : Nat) (cb : EvKind → List Cmd) (s : SelSys) :
    SelSys × List (EvKind × Nat) :=
  let s0 := { s with anioReadSet := s.anioReadSet.erase i, anioInProgress := some i }
  let r : SelSys × List (EvKind × Nat) :=
    if ty = kAIO_TYPE_LISTENER then
      (selInterp (cb .kAIO_NEW_CONNECTION) s0, [(.kAIO_NEW_CONNECTION, i)])
    else if ty = kAIO_TYPE_CONNECTION then
      (selInterp (cb .kAIO_DATA_AVAILABLE) (selConnReadPre i s), [(.kAIO_DATA_AVAILABLE, i)])
    else (s0, [])
  ({ r.1 with anioInProgress := none }, r.2)

/-- Handling of one write-ready descriptor (src/AsyncIO.c lines 907-921,
identically 1185-1199): FD_CLR from anioWriteSet before the callback,
clear notifyOnWrite and deliver kAIO_READY_FOR_WRITE (no type dispatch in
the source). -/
def selWriteReady (i : Nat) (cb : EvKind → List Cmd) (s : SelSys) :
    SelSys × List (EvKind × Nat) :=
  let s2 := selInterp (cb .kAIO_READY_FOR_WRITE) (selWritePre i s)
  ({ s2 with anioInProgress := none }, [(.kAIO_READY_FOR_WRITE, i)])

/-- Environment input of one select wait/process cycle: whether select
returned 0 (timeout), the armed timer cached in aio_next_enabled_timer for
the timeout case together with its callback, and for the ready case the
contents of the readfds/writefds snapshot that select marked ready, the
type tag of the handle at each descriptor, and each callback behavior. -/
structure SelCycle where
  isTimeout : Bool
  firedTimer : Option Nat
  timerCb : EvKind → List Cmd
  maxFd : Nat
  readyRead : Finset Nat
  readyWrite : Finset Nat
  types : Nat → Nat
  cb : Nat → EvKind → List Cmd

/-- The loop body of the descriptor scan for one index i: handle
read-readiness of i, then write-readiness of i (src/AsyncIO.c lines
881-921). -/
def selStepFd (i : Nat) (c : SelCycle) (s : SelSys) : SelSys × List (EvKind × Nat) :=
  let r1 := if i ∈ c.readyRead then selReadReady i (c.types i) (c.cb i) s else (s, [])
  let r2 := if i ∈ c.readyWrite then selWriteReady i (c.cb i) r1.1 else (r1.1, [])
  (r2.1, r1.2 ++ r2.2)

/-- The descriptor scan of the select dispatch (for i = 0 .. maxFd: handle
read-readiness, then write-readiness, of descriptor i).  The early break
when the ready count reaches zero is not modelled: processing the remaining
unmarked descriptors is a no-op. -/
def selProcessFds : List Nat → SelCycle → SelSys → SelSys × List (EvKind × Nat)
  | [], _, s => (s, [])
  | i :: rest, c, s =>
    let r1 := selStepFd i c s
    let r2 := selProcessFds rest c r1.1
    (r2.1, r1.2 ++ r2.2)

/-- One wait/process cycle of the select backend (AsyncIO_ProcessEvents
lines 858-926; the loop body of AsyncIO_Run lines 1138-1203 is identical):
if select returned 0 the cached armed timer, when still set, is removed
from the timer list (AsyncIO_DisableTimer) and fired with anioInProgress
set around the callback; otherwise every ready descriptor is processed in
ascending order. -/
def selCycle (c : SelCycle) (s : SelSys) : SelSys × List (EvKind × Nat) :=
  if c.isTimeout then
    match c.firedTimer with
    | some t =>
      let afterDisable :=
        match AsyncIO_DisableTimer_sel t s.enabled_timers with
        | some l => l
        | none => s.enabled_timers
      let s1 := { s with enabled_timers := afterDisable, anioInProgress := some t }
      let s2 := selInterp (c.timerCb .kAIO_TIMER_FIRED) s1
      ({ s2 with anioInProgress := none }, [(.kAIO_TIMER_FIRED, t)])
    | none => (s, [])
  else selProcessFds (List.range (c.maxFd + 1)) c s

/-- Run a sequence of wait/process cycles. -/
def selTrace : List SelCycle → SelSys → SelSys × List (EvKind × Nat)
  | [], s => (s, [])
  | c :: cs, s =>
    let r1 := selCycle c s
    let r2 := selTrace cs r1.1
    (r2.1, r1.2 ++ r2.2)

/-- Kernel-side well-formedness of a cycle sequence: select marks ready
only descriptors present in the fd_set snapshots that were built from
anioReadSet / anioWriteSet at wait time (src/AsyncIO.c lines 771-786). -/
def selWF : List SelCycle → SelSys → Bool
  | [], _ => true
  | c :: cs, s =>
    (decide (c.readyRead ⊆ s.anioReadSet) && decide (c.readyWrite ⊆ s.anioWriteSet)) &&
    selWF cs (selCycle c s).1

/-- No callback run during the cycles ever calls AsyncIO_NotifyOnReadability
on descriptor f. -/
def selNoRearmRead (f : Nat) (cs : List SelCycle) : Prop :=
  ∀ c ∈ cs, (∀ i k, Cmd.notifyRead f ∉ c.cb i k) ∧ ∀ k, Cmd.notifyRead f ∉ c.timerCb k

/-- No callback run during the cycles ever calls AsyncIO_NotifyOnWritability
on descriptor f. -/
def selNoRearmWrite (f : Nat) (cs : List SelCycle) : Prop :=
  ∀ c ∈ cs, (∀ i k, Cmd.notifyWrite f ∉ c.cb i k) ∧ ∀ k, Cmd.notifyWrite f ∉ c.timerCb k

/-- Number of callback invocations with the given event kind on the given
handle in an invocation log. -/
def countEv (k : EvKind) (f : Nat) (log : List (EvKind × Nat)) : Nat :=
  log.count (k, f)

/-- A concrete one-element timer heap (timer 1 armed once) used to witness
claim C10. -/
def c10Heap : TimerHeap where
  enabled_timers := some 1
  next_timer := fun _ => none
  next_fire_time := fun _ => 0

/-- A concrete kqueue event used to witness claim C3: a read event with
EV_EOF on connection handle 1, whose callback releases the handle itself. -/
def c3Event : KqEvent where
  handle := 1
  filter := .EVFILT_READ
  eof := true
  type := kAIO_TYPE_CONNECTION
  cb := fun _ => [Cmd.release 1]

/-- A concrete kqueue backend state holding only handle 1, used to witness
claim C3. -/
def c3Sys : KqSys where
  live := {1}
  kqRead := {1}
  kqWrite := ∅
  notifyOnRead := {1}
  notifyOnWrite := ∅
  anioInProgress := none

/-- A concrete select cycle (connection descriptor 1 read-ready, callbacks
doing nothing) used to witness claim C4. -/
def c4Cycle : SelCycle where
  isTimeout := false
  firedTimer := none
  timerCb := fun _ => []
  maxFd := 1
  readyRead := {1}
  readyWrite := ∅
  types := fun _ => kAIO_TYPE_CONNECTION
  cb := fun _ _ => []

/-- A concrete select backend state with descriptor 1 armed for reading,
used to witness claim C4. -/
def c4Sys : SelSys where
  live := {1}
  anioReadSet := {1}
  anioWriteSet := ∅
  notifyOnRead := {1}
  notifyOnWrite := ∅
  enabled_timers := []
  anioInProgress := none

/-- A concrete kqueue read event on connection handle 1 with an inert
callback, used to witness claim C4. -/
def c4KqEvent : KqEvent where
  handle := 1
  filter := .EVFILT_READ
  eof := false
  type := kAIO_TYPE_CONNECTION
  cb := fun _ => []

/-- A concrete kqueue backend state with a read filter registered for
handle 1, used to witness claim C4. -/
def c4KqSys : KqSys where
  live := {1}
  kqRead := {1}
  kqWrite := ∅
  notifyOnRead := {1}
  notifyOnWrite := ∅
  anioInProgress := none

/-! # Theorems -/

/-! ## Timer scan lemmas -/

/-- The running minimum of the timer scan never increases and bounds every
fire time it has passed. -/
theorem nextTimerScan_le (l : List (Nat × Nat)) (b : Option Nat) (bf : Nat) :
    (nextTimerScan l b bf).2 ≤ bf ∧ ∀ p ∈ l, (nextTimerScan l b bf).2 ≤ p.2 := by
  induction l generalizing b bf with
  | nil => exact ⟨le_refl _, by simp⟩
  | cons p rest ih =>
    obtain ⟨t, ft⟩ := p
    simp only [nextTimerScan]
    by_cases h : ft < bf
    · rw [if_pos h]
      refine ⟨le_trans (ih (some t) ft).1 (le_of_lt h), ?_⟩
      intro q hq
      rcases List.mem_cons.mp hq with h1 | h2
      · rw [h1]; exact (ih (some t) ft).1
      · exact (ih (some t) ft).2 q h2
    · rw [if_neg h]
      refine ⟨(ih b bf).1, ?_⟩
      intro q hq
      rcases List.mem_cons.mp hq with h1 | h2
      · rw [h1]; exact le_trans (ih b bf).1 (not_lt.mp h)
      · exact (ih b bf).2 q h2

/-- The timer scan either keeps its starting accumulator or lands on one of
the list nodes. -/
theorem nextTimerScan_mem (l : List (Nat × Nat)) (b : Option Nat) (bf : Nat) :
    nextTimerScan l b bf = (b, bf) ∨ ∃ p ∈ l, nextTimerScan l b bf = (some p.1, p.2) := by
  induction l generalizing b bf with
  | nil => left; rfl
  | cons p rest ih =>
    obtain ⟨t, ft⟩ := p
    simp only [nextTimerScan]
    by_cases h : ft < bf
    · rw [if_pos h]
      rcases ih (some t) ft with h1 | ⟨q, hq, h2⟩
      · right; exact ⟨(t, ft), List.mem_cons_self _ _, h1⟩
      · right; exact ⟨q, List.mem_cons_of_mem _ hq, h2⟩
    · rw [if_neg h]
      rcases ih b bf with h1 | ⟨q, hq, h2⟩
      · left; exact h1
      · right; exact ⟨q, List.mem_cons_of_mem _ hq, h2⟩

/-- Claim C7: AsyncIO_GetNextTimerFireTime returns an armed timer whose
deadline is minimal over the list, with the remaining duration clamped to
zero whenever the deadline equals or precedes now; for the armed deadlines
now+50, now+10, now+30 (now = 1000) it returns the now+10 timer with 10 ms
remaining, and a timer armed with EnableTimer(h, 0) yields exactly zero
remaining. -/
theorem c7_next_timer_min_and_clamp :
    (∀ now l t tv, AsyncIO_GetNextTimerFireTime now l = some (t, tv) →
      ∃ ft, (t, ft) ∈ l ∧ (∀ p ∈ l, ft ≤ p.2) ∧ tv = fireTimeToTv now ft) ∧
    (∀ now ft, ft ≤ now → fireTimeToTv now ft = ⟨0, 0⟩) ∧
    AsyncIO_GetNextTimerFireTime 1000 [(1, 1050), (2, 1010), (3, 1030)] =
      some (2, ⟨0, 10000⟩) ∧
    AsyncIO_GetNextTimerFireTime 1000 (AsyncIO_EnableTimer_list 7 0 1000 []) =
      some (7, ⟨0, 0⟩) := by
  refine ⟨?_, ?_, by decide, by decide⟩
  · intro now l t tv h
    unfold AsyncIO_GetNextTimerFireTime at h
    rcases hscan : nextTimerScan l none 4294967295 with ⟨ob, bf⟩
    rw [hscan] at h
    cases ob with
    | none => exact absurd h (by simp)
    | some t2 =>
      simp only [Option.some.injEq, Prod.mk.injEq] at h
      obtain ⟨ht, htv⟩ := h
      rcases nextTimerScan_mem l none 4294967295 with h1 | ⟨q, hq, h2⟩
      · rw [hscan] at h1
        exact absurd h1 (by simp)
      · rw [hscan] at h2
        simp only [Prod.mk.injEq, Option.some.injEq] at h2
        refine ⟨bf, ?_, ?_, htv.symm⟩
        · have : q = (t, bf) := by
            obtain ⟨hq1, hq2⟩ := h2
            calc q = (q.1, q.2) := rfl
            _ = (t, bf) := by rw [← hq1, hq2, ht]
          rw [← this]; exact hq
        · have := (nextTimerScan_le l none 4294967295).2
          rw [hscan] at this
          exact this
  · intro now ft hle
    unfold fireTimeToTv
    by_cases h : now > ft
    · rw [if_pos h]
    · rw [if_neg h]
      have h0 : ft - now = 0 := by omega
      rw [h0]

/-- Witness for claim C7: the clamp applied at a deadline equal to now. -/
theorem c7_next_timer_witness : fireTimeToTv 1000 1000 = ⟨0, 0⟩ :=
  c7_next_timer_min_and_clamp.2.1 1000 1000 (le_refl 1000)

/-- Claim C5, counterexample side effect made explicit: when no timer is
armed, AsyncIO_WaitForEvents leaves the wait timeout equal to whatever was
in the uninitialized pointer variable — the caller-supplied timeout is not
consulted at all; when a timer is armed the smaller of the two bounds does
win (shown at two concrete instances). -/
theorem c5_wait_timeout_no_timer_uses_uninitialized :
    (∀ junk, effectiveWaitTimeout (some ⟨5, 0⟩) 1000 [] junk = junk) ∧
    (∀ junk, effectiveWaitTimeout (some ⟨5, 0⟩) 1000 [(1, 1002)] junk = some ⟨0, 2000⟩) ∧
    (∀ junk, effectiveWaitTimeout (some ⟨0, 1000⟩) 1000 [(1, 2000)] junk = some ⟨0, 1000⟩) :=
  ⟨fun _ => rfl, fun _ => rfl, fun _ => rfl⟩

/-- Claim C8 counterexample: the kqueue backend tolerates ENOENT from the
EV_DELETE and returns success, so disabling an absent timer is a successful
no-op there, refuting the claim read over both backends. -/
theorem c8_kqueue_disable_absent_is_noop : ¬ c8ClaimStatement := by
  intro h
  exact h.2 rfl

/-- Claim C8 as amended: on the select backend, disabling a timer absent
from the armed list fails (returns -1) leaving the list unmodified, while
on the kqueue backend an EV_DELETE failure with ENOENT is tolerated and the
call succeeds; any other kevent failure makes it fail. -/
theorem c8_disable_timer_behavior :
    (∀ t l, (∀ p ∈ l, p.1 ≠ t) → AsyncIO_DisableTimer_sel t l = none) ∧
    AsyncIO_DisableTimer_kq (some ENOENT) = 0 ∧
    (∀ e, e ≠ ENOENT → AsyncIO_DisableTimer_kq (some e) = -1) := by
  refine ⟨?_, rfl, ?_⟩
  · intro t l h
    induction l with
    | nil => rfl
    | cons p rest ih =>
      have hp : p.1 ≠ t := h p (List.mem_cons_self _ _)
      have hr := ih fun q hq => h q (List.mem_cons_of_mem _ hq)
      simp [AsyncIO_DisableTimer_sel, hp, hr]
  · intro e he
    simp [AsyncIO_DisableTimer_kq, he]

/-- Witness for claim C8: disabling timer 5, absent from a two-element
list, fails; a kevent failure other than ENOENT fails the kqueue call. -/
theorem c8_disable_timer_witness :
    AsyncIO_DisableTimer_sel 5 [(1, 10), (2, 20)] = none ∧
    AsyncIO_DisableTimer_kq (some 9) = -1 :=
  ⟨c8_disable_timer_behavior.1 5 [(1, 10), (2, 20)] (by decide),
   c8_disable_timer_behavior.2.2 9 (by decide)⟩

/-- Claim C6 counterexample: AsyncIO_NewConnectionListener has no ENOTTY
exemption — a flag-setting failure with errno ENOTTY fails listener
construction, refuting the claim read over both descriptor-taking
constructors. -/
theorem c6_listener_enotty_fails_construction : ¬ c6ClaimStatement := by
  intro h
  exact absurd (h.2.2.1 0) (by decide)

/-- Claim C6 as amended: both constructors force O_NONBLOCK into the
F_SETFL argument and fail on a failed F_GETFL; AsyncIO_NewConnection
tolerates exactly an ENOTTY flag-setting failure and fails on any other,
while AsyncIO_NewConnectionListener fails on every flag-setting failure,
ENOTTY included. -/
theorem c6_constructor_flag_failure_behavior :
    (∀ fl, setflArgFlags fl &&& O_NONBLOCK = O_NONBLOCK) ∧
    (∀ fl e ok, AsyncIO_NewConnectionListener (some fl) (some e) ok = false) ∧
    (∀ fl e, e ≠ ENOTTY → AsyncIO_NewConnection (some fl) (some e) = false) ∧
    (∀ fl, AsyncIO_NewConnection (some fl) (some ENOTTY) = true) ∧
    (∀ st k, AsyncIO_NewConnectionListener none st k = false) ∧
    (∀ st, AsyncIO_NewConnection none st = false) := by
  refine ⟨?_, fun _ _ _ => rfl, ?_, fun _ => by simp [AsyncIO_NewConnection],
    fun _ _ => rfl, fun _ => rfl⟩
  · intro fl
    unfold setflArgFlags O_NONBLOCK
    apply Nat.eq_of_testBit_eq
    intro i
    rw [Nat.testBit_and, Nat.testBit_or]
    exact (by decide : ∀ a b : Bool, ((a || b) && b) = b) _ _
  · intro fl e he
    simp [AsyncIO_NewConnection, he]

/-- Witness for claim C6: a flag-setting failure with errno EIO fails
connection construction. -/
theorem c6_constructor_witness :
    AsyncIO_NewConnection (some 2) (some 5) = false :=
  c6_constructor_flag_failure_behavior.2.2.1 2 5 (by decide)

/-- Claim C1 (divergence exhibited): input delivering the two bytes 1, 2
then would-block, output accepting one byte and then two bytes.  The pump
compacts after the partial write but num_in_buffer is not reduced, so the
retry hands two bytes to write() again: the output receives 1, 2, 2 —
three bytes with the byte 2 duplicated — although exactly one data-written
notification is emitted and the pump then suspends armed for reading. -/
theorem c1_redirect_partial_write_duplicates_bytes :
    (redirect_Pump 8 (redirInit [.rok [1, 2], .rerr EWOULDBLOCK] [.wok 1, .wok 2])).sent =
      [1, 2, 2] ∧
    (redirect_Pump 8 (redirInit [.rok [1, 2], .rerr EWOULDBLOCK] [.wok 1, .wok 2])).notes =
      [.dataWritten] ∧
    (redirect_Pump 8 (redirInit [.rok [1, 2], .rerr EWOULDBLOCK] [.wok 1, .wok 2])).armedRead =
      true := by
  exact ⟨by decide, by decide, by decide⟩

/-- Claim C2 (divergence exhibited): a read failing with errno EIO makes
the pump emit the input-error notification and then loop straight into
another read() — with a second EIO it emits a second input-error
notification and reads a third time — instead of halting after the first
notification as the claim states. -/
theorem c2_redirect_input_error_does_not_halt :
    (redirect_Pump 8 (redirInit [.rerr EIO, .rerr EIO, .rok []] [])).notes =
      [.inputError, .inputError] ∧
    (redirect_Pump 8 (redirInit [.rerr EIO, .rerr EIO, .rok []] [])).readCalls = 3 := by
  exact ⟨by decide, by decide⟩

/-- A pointer self-loop makes the fire-time scan loop of
AsyncIO_GetNextTimerFireTime run forever. -/
theorem walkEnds_selfloop (next : Nat → Option Nat) (t : Nat) (hself : next t = some t) :
    ∀ fuel, walkEnds next (some t) fuel = false := by
  intro fuel
  induction fuel with
  | zero => rfl
  | succ n ih =>
    show walkEnds next (next t) n = false
    rw [hself]
    exact ih

/-- A pointer self-loop makes the splice scan of AsyncIO_DisableTimer run
forever when it hunts for any other timer. -/
theorem disableScanEnds_selfloop (next : Nat → Option Nat) (t u : Nat)
    (hself : next t = some t) (hne : t ≠ u) :
    ∀ fuel, disableScanEnds next u t fuel = false := by
  intro fuel
  induction fuel with
  | zero => rfl
  | succ n ih =>
    simp only [disableScanEnds, hself]
    rw [if_neg hne]
    exact ih

/-- Claim C10: the select-backend AsyncIO_EnableTimer pushes the timer onto
the list head without removing an existing membership (all other links are
untouched); re-enabling the timer that is currently the head makes its
next_timer link point to itself, after which the linear scan of
AsyncIO_GetNextTimerFireTime never reaches the end of the list and the
splice scan of AsyncIO_DisableTimer for any other timer never terminates. -/
theorem c10_reenable_head_timer_creates_cycle
    (h : TimerHeap) (t ms now : Nat) (hhead : h.enabled_timers = some t) :
    (AsyncIO_EnableTimer_heap t ms now h).next_timer t = some t ∧
    (AsyncIO_EnableTimer_heap t ms now h).enabled_timers = some t ∧
    (∀ u, u ≠ t → (AsyncIO_EnableTimer_heap t ms now h).next_timer u = h.next_timer u) ∧
    (∀ fuel, walkEnds (AsyncIO_EnableTimer_heap t ms now h).next_timer
      (AsyncIO_EnableTimer_heap t ms now h).enabled_timers fuel = false) ∧
    (∀ u, u ≠ t → ∀ fuel,
      disableScanEnds (AsyncIO_EnableTimer_heap t ms now h).next_timer u t fuel = false) := by
  have hself : (AsyncIO_EnableTimer_heap t ms now h).next_timer t = some t := by
    simp [AsyncIO_EnableTimer_heap, hhead]
  refine ⟨hself, rfl, ?_, ?_, ?_⟩
  · intro u hu
    simp [AsyncIO_EnableTimer_heap, hu]
  · intro fuel
    exact walkEnds_selfloop _ t hself fuel
  · intro u hu fuel
    exact disableScanEnds_selfloop _ t u hself (fun he => hu he.symm) fuel

/-! ## Kqueue interpreter invariants (claim C3) -/

/-- No reactor-API call ever sets the in-progress marker: one command
either leaves it alone or clears it (AsyncIO_Release, lines 190-193). -/
theorem kqApplyCmd_inProgress (c : Cmd) (s : KqSys) :
    (kqApplyCmd c s).anioInProgress = s.anioInProgress ∨
    (kqApplyCmd c s).anioInProgress = none := by
  cases c with
  | release h =>
    by_cases he : s.anioInProgress = some h
    · right; simp [kqApplyCmd, kq_Release, he]
    · left; simp [kqApplyCmd, kq_Release, he]
  | notifyRead h => left; rfl
  | notifyWrite h => left; rfl

/-- A callback leaves the in-progress marker alone or clears it. -/
theorem kqInterp_inProgress (cmds : List Cmd) (s : KqSys) :
    (kqInterp cmds s).anioInProgress = s.anioInProgress ∨
    (kqInterp cmds s).anioInProgress = none := by
  induction cmds generalizing s with
  | nil => left; rfl
  | cons c cs ih =>
    rw [show kqInterp (c :: cs) s = kqInterp cs (kqApplyCmd c s) from rfl]
    rcases ih (kqApplyCmd c s) with h1 | h1
    · rcases kqApplyCmd_inProgress c s with h2 | h2
      · left; rw [h1, h2]
      · right; rw [h1, h2]
    · right; exact h1

/-- A callback that calls AsyncIO_Release on the handle currently marked
in progress leaves the marker cleared at callback exit. -/
theorem kqInterp_release_clears (cmds : List Cmd) (s : KqSys) (h : Nat)
    (hmem : Cmd.release h ∈ cmds)
    (hst : s.anioInProgress = some h ∨ s.anioInProgress = none) :
    (kqInterp cmds s).anioInProgress = none := by
  induction cmds generalizing s with
  | nil => cases hmem
  | cons c cs ih =>
    rw [show kqInterp (c :: cs) s = kqInterp cs (kqApplyCmd c s) from rfl]
    rcases List.mem_cons.mp hmem with hc | hc
    · subst hc
      have h2 : (kqApplyCmd (Cmd.release h) s).anioInProgress = none := by
        rcases hst with h1 | h1 <;> simp [kqApplyCmd, kq_Release, h1]
      rcases kqInterp_inProgress cs (kqApplyCmd (Cmd.release h) s) with h3 | h3
      · rw [h3, h2]
      · exact h3
    · apply ih _ hc
      rcases kqApplyCmd_inProgress c s with h2 | h2
      · rw [h2]; exact hst
      · right; exact h2

/-- No reactor-API call resurrects a freed handle: absence from the live
set is preserved by a callback. -/
theorem kqInterp_live_absent (cmds : List Cmd) (s : KqSys) (h : Nat)
    (hf : h ∉ s.live) : h ∉ (kqInterp cmds s).live := by
  induction cmds generalizing s with
  | nil => exact hf
  | cons c cs ih =>
    show h ∉ (kqInterp cs (kqApplyCmd c s)).live
    apply ih
    cases c with
    | release h2 =>
      intro hmem
      exact hf (Finset.mem_of_mem_erase hmem)
    | notifyRead h2 => exact hf
    | notifyWrite h2 => exact hf

/-- A callback that calls AsyncIO_Release on handle h leaves h freed. -/
theorem kqInterp_release_removes (cmds : List Cmd) (s : KqSys) (h : Nat)
    (hmem : Cmd.release h ∈ cmds) : h ∉ (kqInterp cmds s).live := by
  induction cmds generalizing s with
  | nil => cases hmem
  | cons c cs ih =>
    rw [show kqInterp (c :: cs) s = kqInterp cs (kqApplyCmd c s) from rfl]
    rcases List.mem_cons.mp hmem with hc | hc
    · subst hc
      apply kqInterp_live_absent
      simp [kqApplyCmd, kq_Release]
    · exact ih _ hc

/-- Claim C3: when the kAIO_DATA_AVAILABLE callback of a connection read
event calls AsyncIO_Release on the very handle being dispatched, the
in-progress marker is cleared by the release, the handle is freed, and the
dispatch pass delivers nothing further to that handle — in particular the
kAIO_CONNECTION_CLOSED follow-up guarded by the in-progress check is
suppressed even when the event carried EV_EOF, so the invocation log of
the pass holds exactly the one kAIO_DATA_AVAILABLE delivery. -/
theorem c3_release_during_dispatch_suppresses_eof_event
    (ev : KqEvent) (s : KqSys)
    (hfil : ev.filter = .EVFILT_READ)
    (hty : ev.type = kAIO_TYPE_CONNECTION)
    (hrel : Cmd.release ev.handle ∈ ev.cb .kAIO_DATA_AVAILABLE) :
    (kqInterp (ev.cb .kAIO_DATA_AVAILABLE) (kqConnReadPre ev.handle s)).anioInProgress =
      none ∧
    ev.handle ∉ (kqInterp (ev.cb .kAIO_DATA_AVAILABLE) (kqConnReadPre ev.handle s)).live ∧
    (kqProcessEvent ev s).2 = [(.kAIO_DATA_AVAILABLE, ev.handle)] := by
  have hclr := kqInterp_release_clears (ev.cb .kAIO_DATA_AVAILABLE)
    (kqConnReadPre ev.handle s) ev.handle hrel (Or.inl rfl)
  refine ⟨hclr, kqInterp_release_removes _ _ _ hrel, ?_⟩
  have hty2 : ev.type ≠ kAIO_TYPE_LISTENER := by
    rw [hty]; decide
  unfold kqProcessEvent
  rw [hfil]
  simp only [if_neg hty2, if_pos hty]
  by_cases heof : ev.eof
  · simp only [heof, if_pos trivial, hclr]
    simp
  · simp [heof]

/-- Witness for claim C3: handle 1 releases itself from its own data
callback; the pass log holds only the data delivery although the event
carried EV_EOF. -/
theorem c3_release_witness :
    (kqProcessEvent c3Event c3Sys).2 = [(.kAIO_DATA_AVAILABLE, 1)] :=
  (c3_release_during_dispatch_suppresses_eof_event c3Event c3Sys rfl rfl
    (by decide)).2.2

/-! ## The select dispatch path never produces kAIO_CONNECTION_CLOSED
(claim C9) -/

/-- A read-ready descriptor yields a new-connection or data delivery,
never a connection-closed one. -/
theorem selReadReady_no_closed (i ty : Nat) (cb : EvKind → List Cmd) (s : SelSys)
    (f : Nat) : (EvKind.kAIO_CONNECTION_CLOSED, f) ∉ (selReadReady i ty cb s).2 := by
  unfold selReadReady
  by_cases h1 : ty = kAIO_TYPE_LISTENER
  · simp [h1]
  · by_cases h2 : ty = kAIO_TYPE_CONNECTION
    · simp [h1, h2, kAIO_TYPE_CONNECTION, kAIO_TYPE_LISTENER]
    · simp [h1, h2]

/-- A write-ready descriptor yields exactly one ready-for-write delivery. -/
theorem selWriteReady_no_closed (i : Nat) (cb : EvKind → List Cmd) (s : SelSys)
    (f : Nat) : (EvKind.kAIO_CONNECTION_CLOSED, f) ∉ (selWriteReady i cb s).2 := by
  simp [selWriteReady]

/-- The loop body for one descriptor never logs a connection-closed
delivery. -/
theorem selStepFd_no_closed (i : Nat) (c : SelCycle) (s : SelSys) (f : Nat) :
    (EvKind.kAIO_CONNECTION_CLOSED, f) ∉ (selStepFd i c s).2 := by
  unfold selStepFd
  by_cases hr : i ∈ c.readyRead <;> by_cases hw : i ∈ c.readyWrite <;>
    simp only [hr, hw, ite_true, ite_false, List.mem_append, not_or, List.not_mem_nil,
      not_false_iff, and_true, true_and] <;>
    first
      | exact ⟨selReadReady_no_closed _ _ _ _ _, selWriteReady_no_closed _ _ _ _⟩
      | exact selReadReady_no_closed _ _ _ _ _
      | exact selWriteReady_no_closed _ _ _ _

/-- The descriptor scan of a select cycle never logs a connection-closed
delivery. -/
theorem selProcessFds_no_closed (fds : List Nat) (c : SelCycle) (s : SelSys) (f : Nat) :
    (EvKind.kAIO_CONNECTION_CLOSED, f) ∉ (selProcessFds fds c s).2 := by
  induction fds generalizing s with
  | nil => simp [selProcessFds]
  | cons i rest ih =>
    simp only [selProcessFds, List.mem_append, not_or]
    exact ⟨selStepFd_no_closed _ _ _ _, ih _⟩

/-- One select wait/process cycle never logs a connection-closed
delivery. -/
theorem selCycle_no_closed (c : SelCycle) (s : SelSys) (f : Nat) :
    (EvKind.kAIO_CONNECTION_CLOSED, f) ∉ (selCycle c s).2 := by
  unfold selCycle
  by_cases ht : c.isTimeout
  · simp only [ht, if_true, ite_true]
    cases c.firedTimer with
    | none => simp
    | some t => simp
  · simp only [ht, if_false, ite_false]
    exact selProcessFds_no_closed _ _ _ _

/-- A select trace log never holds a connection-closed delivery. -/
theorem selTrace_no_closed (cycles : List SelCycle) (s : SelSys) (f : Nat) :
    (EvKind.kAIO_CONNECTION_CLOSED, f) ∉ (selTrace cycles s).2 := by
  induction cycles generalizing s with
  | nil => simp [selTrace]
  | cons c cs ih =>
    simp only [selTrace, List.mem_append, not_or]
    exact ⟨selCycle_no_closed _ _ _, ih _⟩

/-- Claim C9: under the level-style (select) backend no sequence of
wait/process cycles ever invokes a callback with event kind
kAIO_CONNECTION_CLOSED — read EOF is never surfaced there (the documented
limitation at src/AsyncIO.c lines 764-765 and 1070-1071): every handle
receives zero such deliveries over every trace. -/
theorem c9_select_never_emits_connection_closed
    (cycles : List SelCycle) (s : SelSys) (f : Nat) :
    countEv .kAIO_CONNECTION_CLOSED f (selTrace cycles s).2 = 0 :=
  List.count_eq_zero.mpr (selTrace_no_closed cycles s f)

/-! ## One-shot arming on the select backend (claim C4): state lemmas -/

/-- A reactor-API call other than re-arming readability of f never puts f
into anioReadSet. -/
theorem selApplyCmd_readSet_absent (c : Cmd) (s : SelSys) (f : Nat)
    (hc : c ≠ Cmd.notifyRead f) (hf : f ∉ s.anioReadSet) :
    f ∉ (selApplyCmd c s).anioReadSet := by
  cases c with
  | release h => intro hmem; exact hf (Finset.mem_of_mem_erase hmem)
  | notifyRead h =>
    intro hmem
    rcases Finset.mem_insert.mp hmem with h1 | h1
    · subst h1; exact hc rfl
    · exact hf h1
  | notifyWrite h => exact hf

/-- A callback not re-arming readability of f leaves f out of
anioReadSet. -/
theorem selInterp_readSet_absent (cmds : List Cmd) (s : SelSys) (f : Nat)
    (hn : Cmd.notifyRead f ∉ cmds) (hf : f ∉ s.anioReadSet) :
    f ∉ (selInterp cmds s).anioReadSet := by
  induction cmds generalizing s with
  | nil => exact hf
  | cons c cs ih =>
    rw [show selInterp (c :: cs) s = selInterp cs (selApplyCmd c s) from rfl]
    refine ih _ (fun hmem => hn (List.mem_cons_of_mem _ hmem)) ?_
    refine selApplyCmd_readSet_absent c s f ?_ hf
    intro hc
    exact hn (by rw [hc]; exact List.mem_cons_self _ _)

/-- A reactor-API call other than re-arming writability of f never puts f
into anioWriteSet. -/
theorem selApplyCmd_writeSet_absent (c : Cmd) (s : SelSys) (f : Nat)
    (hc : c ≠ Cmd.notifyWrite f) (hf : f ∉ s.anioWriteSet) :
    f ∉ (selApplyCmd c s).anioWriteSet := by
  cases c with
  | release h => intro hmem; exact hf (Finset.mem_of_mem_erase hmem)
  | notifyRead h => exact hf
  | notifyWrite h =>
    intro hmem
    rcases Finset.mem_insert.mp hmem with h1 | h1
    · subst h1; exact hc rfl
    · exact hf h1

/-- A callback not re-arming writability of f leaves f out of
anioWriteSet. -/
theorem selInterp_writeSet_absent (cmds : List Cmd) (s : SelSys) (f : Nat)
    (hn : Cmd.notifyWrite f ∉ cmds) (hf : f ∉ s.anioWriteSet) :
    f ∉ (selInterp cmds s).anioWriteSet := by
  induction cmds generalizing s with
  | nil => exact hf
  | cons c cs ih =>
    rw [show selInterp (c :: cs) s = selInterp cs (selApplyCmd c s) from rfl]
    refine ih _ (fun hmem => hn (List.mem_cons_of_mem _ hmem)) ?_
    refine selApplyCmd_writeSet_absent c s f ?_ hf
    intro hc
    exact hn (by rw [hc]; exact List.mem_cons_self _ _)

/-- Processing a read-ready descriptor leaves f out of anioReadSet, both
when f is the processed descriptor (the FD_CLR before the callback removes
it) and when f was already out, provided the callback does not re-arm. -/
theorem selReadReady_readSet_absent (i ty f : Nat) (cb : EvKind → List Cmd) (s : SelSys)
    (hn : ∀ k, Cmd.notifyRead f ∉ cb k)
    (hor : i = f ∨ f ∉ s.anioReadSet) :
    f ∉ (selReadReady i ty cb s).1.anioReadSet := by
  have hbase : f ∉ s.anioReadSet.erase i := by
    rcases hor with h | h
    · subst h; exact Finset.not_mem_erase _ _
    · intro hmem; exact h (Finset.mem_of_mem_erase hmem)
  unfold selReadReady
  by_cases h1 : ty = kAIO_TYPE_LISTENER
  · simp only [h1, ite_true, if_true]
    exact selInterp_readSet_absent _ _ _ (hn _) hbase
  · by_cases h2 : ty = kAIO_TYPE_CONNECTION
    · simp only [h1, h2, ite_true, ite_false, if_true, if_false]
      exact selInterp_readSet_absent _ _ _ (hn _) hbase
    · simp only [h1, h2, ite_false, if_false]
      exact hbase

/-- Processing a write-ready descriptor does not touch anioReadSet except
through the callback. -/
theorem selWriteReady_readSet_absent (i f : Nat) (cb : EvKind → List Cmd) (s : SelSys)
    (hn : ∀ k, Cmd.notifyRead f ∉ cb k) (hf : f ∉ s.anioReadSet) :
    f ∉ (selWriteReady i cb s).1.anioReadSet :=
  selInterp_readSet_absent _ _ _ (hn _) hf

/-- Processing a write-ready descriptor leaves f out of anioWriteSet, both
when f is the processed descriptor and when f was already out, provided the
callback does not re-arm. -/
theorem selWriteReady_writeSet_absent (i f : Nat) (cb : EvKind → List Cmd) (s : SelSys)
    (hn : ∀ k, Cmd.notifyWrite f ∉ cb k)
    (hor : i = f ∨ f ∉ s.anioWriteSet) :
    f ∉ (selWriteReady i cb s).1.anioWriteSet := by
  have hbase : f ∉ s.anioWriteSet.erase i := by
    rcases hor with h | h
    · subst h; exact Finset.not_mem_erase _ _
    · intro hmem; exact h (Finset.mem_of_mem_erase hmem)
  exact selInterp_writeSet_absent _ _ _ (hn _) hbase

/-- Processing a read-ready descriptor does not touch anioWriteSet except
through the callback. -/
theorem selReadReady_writeSet_absent (i ty f : Nat) (cb : EvKind → List Cmd) (s : SelSys)
    (hn : ∀ k, Cmd.notifyWrite f ∉ cb k) (hf : f ∉ s.anioWriteSet) :
    f ∉ (selReadReady i ty cb s).1.anioWriteSet := by
  unfold selReadReady
  by_cases h1 : ty = kAIO_TYPE_LISTENER
  · simp only [h1, ite_true, if_true]
    exact selInterp_writeSet_absent _ _ _ (hn _) hf
  · by_cases h2 : ty = kAIO_TYPE_CONNECTION
    · simp only [h1, h2, ite_true, ite_false, if_true, if_false]
      exact selInterp_writeSet_absent _ _ _ (hn _) hf
    · simp only [h1, h2, ite_false, if_false]
      exact hf

/-! ## One-shot arming on the select backend (claim C4): count lemmas -/

/-- The log of one read-ready descriptor holds at most one data delivery to
f, and none when the descriptor is not f. -/
theorem selReadReady_count_da (i ty : Nat) (cb : EvKind → List Cmd) (s : SelSys)
    (f : Nat) :
    countEv .kAIO_DATA_AVAILABLE f (selReadReady i ty cb s).2 ≤ 1 ∧
    (i ≠ f → countEv .kAIO_DATA_AVAILABLE f (selReadReady i ty cb s).2 = 0) := by
  unfold selReadReady countEv
  by_cases h1 : ty = kAIO_TYPE_LISTENER
  · simp [h1, List.count_singleton]
  · by_cases h2 : ty = kAIO_TYPE_CONNECTION
    · simp only [h1, h2, kAIO_TYPE_CONNECTION, kAIO_TYPE_LISTENER, ite_true, ite_false,
        if_true, if_false, show (2 : Nat) = 1 ↔ False by simp, if_neg (by decide : ¬(2 : Nat) = 1)]
      constructor
      · by_cases h3 : i = f <;> simp [List.count_singleton, h3]
      · intro h3
        simp [List.count_singleton, h3]
    · simp [h1, h2]

/-- The log of one read-ready descriptor never holds a ready-for-write
delivery. -/
theorem selReadReady_count_rfw (i ty : Nat) (cb : EvKind → List Cmd) (s : SelSys)
    (f : Nat) :
    countEv .kAIO_READY_FOR_WRITE f (selReadReady i ty cb s).2 = 0 := by
  unfold selReadReady countEv
  by_cases h1 : ty = kAIO_TYPE_LISTENER
  · simp [h1, List.count_singleton]
  · by_cases h2 : ty = kAIO_TYPE_CONNECTION
    · simp [h1, h2, kAIO_TYPE_CONNECTION, kAIO_TYPE_LISTENER, List.count_singleton]
    · simp [h1, h2]

/-- The log of one write-ready descriptor never holds a data delivery. -/
theorem selWriteReady_count_da (i : Nat) (cb : EvKind → List Cmd) (s : SelSys)
    (f : Nat) :
    countEv .kAIO_DATA_AVAILABLE f (selWriteReady i cb s).2 = 0 := by
  simp [selWriteReady, countEv, List.count_singleton]

/-- The log of one write-ready descriptor holds at most one ready-for-write
delivery to f, and none when the descriptor is not f. -/
theorem selWriteReady_count_rfw (i : Nat) (cb : EvKind → List Cmd) (s : SelSys)
    (f : Nat) :
    countEv .kAIO_READY_FOR_WRITE f (selWriteReady i cb s).2 ≤ 1 ∧
    (i ≠ f → countEv .kAIO_READY_FOR_WRITE f (selWriteReady i cb s).2 = 0) := by
  unfold selWriteReady countEv
  constructor
  · by_cases h3 : i = f <;> simp [List.count_singleton, h3]
  · intro h3
    simp [List.count_singleton, h3]

/-- Counting deliveries distributes over log concatenation. -/
theorem countEv_append (k : EvKind) (f : Nat) (l1 l2 : List (EvKind × Nat)) :
    countEv k f (l1 ++ l2) = countEv k f l1 + countEv k f l2 :=
  List.count_append _ _ _

/-- Data deliveries logged by one loop body: at most one, and none unless
the descriptor is f and f is marked read-ready. -/
theorem selStepFd_count_da (i : Nat) (c : SelCycle) (s : SelSys) (f : Nat) :
    countEv .kAIO_DATA_AVAILABLE f (selStepFd i c s).2 ≤ 1 ∧
    ((i ≠ f ∨ f ∉ c.readyRead) →
      countEv .kAIO_DATA_AVAILABLE f (selStepFd i c s).2 = 0) := by
  unfold selStepFd
  by_cases hr : i ∈ c.readyRead <;> by_cases hw : i ∈ c.readyWrite <;>
    simp only [hr, hw, ite_true, ite_false, countEv_append]
  · have hA := selReadReady_count_da i (c.types i) (c.cb i) s f
    have hB := selWriteReady_count_da i (c.cb i) (selReadReady i (c.types i) (c.cb i) s).1 f
    constructor
    · omega
    · intro hpre
      have hA0 : countEv .kAIO_DATA_AVAILABLE f (selReadReady i (c.types i) (c.cb i) s).2 = 0 := by
        apply hA.2
        rcases hpre with h | h
        · exact h
        · intro he; subst he; exact h hr
      omega
  · have hA := selReadReady_count_da i (c.types i) (c.cb i) s f
    constructor
    · have := hA.1; simp [countEv] at this ⊢; omega
    · intro hpre
      have hA0 : countEv .kAIO_DATA_AVAILABLE f (selReadReady i (c.types i) (c.cb i) s).2 = 0 := by
        apply hA.2
        rcases hpre with h | h
        · exact h
        · intro he; subst he; exact h hr
      simp [countEv] at hA0 ⊢
      omega
  · have hB := selWriteReady_count_da i (c.cb i) s f
    constructor
    · simp [countEv] at hB ⊢; omega
    · intro _; simp [countEv] at hB ⊢; omega
  · exact ⟨by simp [countEv], fun _ => by simp [countEv]⟩

/-- Ready-for-write deliveries logged by one loop body: at most one, and
none unless the descriptor is f and f is marked write-ready. -/
theorem selStepFd_count_rfw (i : Nat) (c : SelCycle) (s : SelSys) (f : Nat) :
    countEv .kAIO_READY_FOR_WRITE f (selStepFd i c s).2 ≤ 1 ∧
    ((i ≠ f ∨ f ∉ c.readyWrite) →
      countEv .kAIO_READY_FOR_WRITE f (selStepFd i c s).2 = 0) := by
  unfold selStepFd
  by_cases hr : i ∈ c.readyRead <;> by_cases hw : i ∈ c.readyWrite <;>
    simp only [hr, hw, ite_true, ite_false, countEv_append]
  · have hA := selReadReady_count_rfw i (c.types i) (c.cb i) s f
    have hB := selWriteReady_count_rfw i (c.cb i) (selReadReady i (c.types i) (c.cb i) s).1 f
    constructor
    · omega
    · intro hpre
      have hB0 : countEv .kAIO_READY_FOR_WRITE f
          (selWriteReady i (c.cb i) (selReadReady i (c.types i) (c.cb i) s).1).2 = 0 := by
        apply hB.2
        rcases hpre with h | h
        · exact h
        · intro he; subst he; exact h hw
      omega
  · have hA := selReadReady_count_rfw i (c.types i) (c.cb i) s f
    constructor
    · simp [countEv] at hA ⊢; omega
    · intro _; simp [countEv] at hA ⊢; omega
  · have hB := selWriteReady_count_rfw i (c.cb i) s f
    constructor
    · simp [countEv] at hB ⊢; omega
    · intro hpre
      have hB0 : countEv .kAIO_READY_FOR_WRITE f (selWriteReady i (c.cb i) s).2 = 0 := by
        apply hB.2
        rcases hpre with h | h
        · exact h
        · intro he; subst he; exact h hw
      simp [countEv] at hB0 ⊢
      omega
  · exact ⟨by simp [countEv], fun _ => by simp [countEv]⟩

/-- One loop body leaves f out of anioReadSet when f is the processed
read-ready descriptor (the FD_CLR removes it) or was already out, provided
no callback re-arms readability of f. -/
theorem selStepFd_readSet_absent (i : Nat) (c : SelCycle) (s : SelSys) (f : Nat)
    (hn : ∀ j k, Cmd.notifyRead f ∉ c.cb j k)
    (hor : (i = f ∧ f ∈ c.readyRead) ∨ f ∉ s.anioReadSet) :
    f ∉ (selStepFd i c s).1.anioReadSet := by
  unfold selStepFd
  by_cases hr : i ∈ c.readyRead
  · have h1 : f ∉ (selReadReady i (c.types i) (c.cb i) s).1.anioReadSet := by
      apply selReadReady_readSet_absent _ _ _ _ _ (hn i)
      rcases hor with ⟨he, _⟩ | h
      · left; exact he
      · right; exact h
    by_cases hw : i ∈ c.readyWrite
    · simp only [hr, hw, ite_true]
      exact selWriteReady_readSet_absent _ _ _ _ (hn i) h1
    · simp only [hr, hw, ite_true, ite_false]
      exact h1
  · have h0 : f ∉ s.anioReadSet := by
      rcases hor with ⟨he, hm⟩ | h
      · exact absurd (by rw [he]; exact hm) hr
      · exact h
    by_cases hw : i ∈ c.readyWrite
    · simp only [hr, hw, ite_false, ite_true]
      exact selWriteReady_readSet_absent _ _ _ _ (hn i) h0
    · simp only [hr, hw, ite_false]
      exact h0

/-- One loop body leaves f out of anioWriteSet when f is the processed
write-ready descriptor or was already out, provided no callback re-arms
writability of f. -/
theorem selStepFd_writeSet_absent (i : Nat) (c : SelCycle) (s : SelSys) (f : Nat)
    (hn : ∀ j k, Cmd.notifyWrite f ∉ c.cb j k)
    (hor : (i = f ∧ f ∈ c.readyWrite) ∨ f ∉ s.anioWriteSet) :
    f ∉ (selStepFd i c s).1.anioWriteSet := by
  unfold selStepFd
  by_cases hw : i ∈ c.readyWrite
  · have h1 : ∀ s2 : SelSys, f ∉ s2.anioWriteSet ∨ i = f →
        f ∉ (selWriteReady i (c.cb i) s2).1.anioWriteSet := by
      intro s2 h2
      apply selWriteReady_writeSet_absent _ _ _ _ (hn i)
      rcases h2 with h | h
      · right; exact h
      · left; exact h
    by_cases hr : i ∈ c.readyRead
    · simp only [hr, hw, ite_true]
      rcases hor with ⟨he, _⟩ | h
      · exact h1 _ (Or.inr he)
      · exact h1 _ (Or.inl (selReadReady_writeSet_absent _ _ _ _ _ (hn i) h))
    · simp only [hr, hw, ite_false, ite_true]
      rcases hor with ⟨he, _⟩ | h
      · exact h1 _ (Or.inr he)
      · exact h1 _ (Or.inl h)
  · have h0 : f ∉ s.anioWriteSet := by
      rcases hor with ⟨he, hm⟩ | h
      · exact absurd (by rw [he]; exact hm) hw
      · exact h
    by_cases hr : i ∈ c.readyRead
    · simp only [hr, hw, ite_true, ite_false]
      exact selReadReady_writeSet_absent _ _ _ _ _ (hn i) h0
    · simp only [hr, hw, ite_false]
      exact h0

/-- A loop body that actually logged a data delivery to f leaves f
disarmed for reading. -/
theorem selStepFd_da_pos_absent (i : Nat) (c : SelCycle) (s : SelSys) (f : Nat)
    (hn : ∀ j k, Cmd.notifyRead f ∉ c.cb j k)
    (hpos : 1 ≤ countEv .kAIO_DATA_AVAILABLE f (selStepFd i c s).2) :
    f ∉ (selStepFd i c s).1.anioReadSet := by
  apply selStepFd_readSet_absent i c s f hn
  by_cases h1 : i = f ∧ f ∈ c.readyRead
  · exact Or.inl h1
  · exfalso
    have h2 : i ≠ f ∨ f ∉ c.readyRead := by tauto
    have h3 := (selStepFd_count_da i c s f).2 h2
    omega

/-- A loop body that actually logged a ready-for-write delivery to f
leaves f disarmed for writing. -/
theorem selStepFd_rfw_pos_absent (i : Nat) (c : SelCycle) (s : SelSys) (f : Nat)
    (hn : ∀ j k, Cmd.notifyWrite f ∉ c.cb j k)
    (hpos : 1 ≤ countEv .kAIO_READY_FOR_WRITE f (selStepFd i c s).2) :
    f ∉ (selStepFd i c s).1.anioWriteSet := by
  apply selStepFd_writeSet_absent i c s f hn
  by_cases h1 : i = f ∧ f ∈ c.readyWrite
  · exact Or.inl h1
  · exfalso
    have h2 : i ≠ f ∨ f ∉ c.readyWrite := by tauto
    have h3 := (selStepFd_count_rfw i c s f).2 h2
    omega

/-- The descriptor scan and data deliveries to f: at most one delivery when
f occurs at most once among the scanned indices; no delivery when f is
disarmed and not marked ready, or not scanned at all; and f ends the scan
disarmed for reading whenever it began disarmed or a delivery occurred —
all provided no callback re-arms readability of f. -/
theorem selProcessFds_read (fds : List Nat) (c : SelCycle) (s : SelSys) (f : Nat)
    (hn : ∀ j k, Cmd.notifyRead f ∉ c.cb j k)
    (hcnt : fds.count f ≤ 1) :
    countEv .kAIO_DATA_AVAILABLE f (selProcessFds fds c s).2 ≤ 1 ∧
    (f ∉ s.anioReadSet → f ∉ c.readyRead →
      countEv .kAIO_DATA_AVAILABLE f (selProcessFds fds c s).2 = 0) ∧
    (f ∉ fds → countEv .kAIO_DATA_AVAILABLE f (selProcessFds fds c s).2 = 0) ∧
    ((f ∉ s.anioReadSet ∨ 1 ≤ countEv .kAIO_DATA_AVAILABLE f (selProcessFds fds c s).2) →
      f ∉ (selProcessFds fds c s).1.anioReadSet) := by
  induction fds generalizing s with
  | nil =>
    refine ⟨by simp [selProcessFds, countEv], fun _ _ => by simp [selProcessFds, countEv],
      fun _ => by simp [selProcessFds, countEv], ?_⟩
    intro hpre
    rcases hpre with h | h
    · exact h
    · simp [selProcessFds, countEv] at h
  | cons i rest ih =>
    have hcntRest : rest.count f ≤ 1 := by
      rw [List.count_cons] at hcnt
      omega
    have hstep := selStepFd_count_da i c s f
    obtain ⟨ihA, ihB, ihC, ihD⟩ := ih (selStepFd i c s).1 hcntRest
    simp only [selProcessFds, countEv_append]
    refine ⟨?_, ?_, ?_, ?_⟩
    · by_cases hif : i = f
      · have hnotrest : f ∉ rest := by
          rw [List.count_cons] at hcnt
          simp only [hif, beq_self_eq_true, if_true, ite_true] at hcnt
          exact List.count_eq_zero.mp (by omega)
        have := ihC hnotrest
        omega
      · have := hstep.2 (Or.inl hif)
        omega
    · intro hf hnr
      have h1 := hstep.2 (Or.inr hnr)
      have h2 := ihB (selStepFd_readSet_absent i c s f hn (Or.inr hf)) hnr
      omega
    · intro hmem
      have hif : i ≠ f := fun he => hmem (he ▸ List.mem_cons_self _ _)
      have hrest : f ∉ rest := fun hm => hmem (List.mem_cons_of_mem _ hm)
      have h1 := hstep.2 (Or.inl hif)
      have h2 := ihC hrest
      omega
    · intro hpre
      rcases hpre with hf | hpos
      · exact ihD (Or.inl (selStepFd_readSet_absent i c s f hn (Or.inr hf)))
      · by_cases hc1 : 1 ≤ countEv .kAIO_DATA_AVAILABLE f (selStepFd i c s).2
        · exact ihD (Or.inl (selStepFd_da_pos_absent i c s f hn hc1))
        · have : 1 ≤ countEv .kAIO_DATA_AVAILABLE f (selProcessFds rest c (selStepFd i c s).1).2 := by
            omega
          exact ihD (Or.inr this)

/-- The descriptor scan and ready-for-write deliveries to f, mirroring the
read direction. -/
theorem selProcessFds_write (fds : List Nat) (c : SelCycle) (s : SelSys) (f : Nat)
    (hn : ∀ j k, Cmd.notifyWrite f ∉ c.cb j k)
    (hcnt : fds.count f ≤ 1) :
    countEv .kAIO_READY_FOR_WRITE f (selProcessFds fds c s).2 ≤ 1 ∧
    (f ∉ s.anioWriteSet → f ∉ c.readyWrite →
      countEv .kAIO_READY_FOR_WRITE f (selProcessFds fds c s).2 = 0) ∧
    (f ∉ fds → countEv .kAIO_READY_FOR_WRITE f (selProcessFds fds c s).2 = 0) ∧
    ((f ∉ s.anioWriteSet ∨ 1 ≤ countEv .kAIO_READY_FOR_WRITE f (selProcessFds fds c s).2) →
      f ∉ (selProcessFds fds c s).1.anioWriteSet) := by
  induction fds generalizing s with
  | nil =>
    refine ⟨by simp [selProcessFds, countEv], fun _ _ => by simp [selProcessFds, countEv],
      fun _ => by simp [selProcessFds, countEv], ?_⟩
    intro hpre
    rcases hpre with h | h
    · exact h
    · simp [selProcessFds, countEv] at h
  | cons i rest ih =>
    have hcntRest : rest.count f ≤ 1 := by
      rw [List.count_cons] at hcnt
      omega
    have hstep := selStepFd_count_rfw i c s f
    obtain ⟨ihA, ihB, ihC, ihD⟩ := ih (selStepFd i c s).1 hcntRest
    simp only [selProcessFds, countEv_append]
    refine ⟨?_, ?_, ?_, ?_⟩
    · by_cases hif : i = f
      · have hnotrest : f ∉ rest := by
          rw [List.count_cons] at hcnt
          simp only [hif, beq_self_eq_true, if_true, ite_true] at hcnt
          exact List.count_eq_zero.mp (by omega)
        have := ihC hnotrest
        omega
      · have := hstep.2 (Or.inl hif)
        omega
    · intro hf hnr
      have h1 := hstep.2 (Or.inr hnr)
      have h2 := ihB (selStepFd_writeSet_absent i c s f hn (Or.inr hf)) hnr
      omega
    · intro hmem
      have hif : i ≠ f := fun he => hmem (he ▸ List.mem_cons_self _ _)
      have hrest : f ∉ rest := fun hm => hmem (List.mem_cons_of_mem _ hm)
      have h1 := hstep.2 (Or.inl hif)
      have h2 := ihC hrest
      omega
    · intro hpre
      rcases hpre with hf | hpos
      · exact ihD (Or.inl (selStepFd_writeSet_absent i c s f hn (Or.inr hf)))
      · by_cases hc1 : 1 ≤ countEv .kAIO_READY_FOR_WRITE f (selStepFd i c s).2
        · exact ihD (Or.inl (selStepFd_rfw_pos_absent i c s f hn hc1))
        · have : 1 ≤ countEv .kAIO_READY_FOR_WRITE f
              (selProcessFds rest c (selStepFd i c s).1).2 := by
            omega
          exact ihD (Or.inr this)

/-- One cycle and data deliveries to f: at most one; none when f is
disarmed (given that select only marks polled descriptors ready); and f
ends disarmed whenever it began disarmed or was delivered to. -/
theorem selCycle_read (c : SelCycle) (s : SelSys) (f : Nat)
    (hn : ∀ j k, Cmd.notifyRead f ∉ c.cb j k)
    (hnt : ∀ k, Cmd.notifyRead f ∉ c.timerCb k) :
    countEv .kAIO_DATA_AVAILABLE f (selCycle c s).2 ≤ 1 ∧
    (f ∉ s.anioReadSet → c.readyRead ⊆ s.anioReadSet →
      countEv .kAIO_DATA_AVAILABLE f (selCycle c s).2 = 0) ∧
    ((f ∉ s.anioReadSet ∨ 1 ≤ countEv .kAIO_DATA_AVAILABLE f (selCycle c s).2) →
      f ∉ (selCycle c s).1.anioReadSet) := by
  unfold selCycle
  by_cases ht : c.isTimeout
  · simp only [ht, ite_true]
    cases c.firedTimer with
    | none =>
      refine ⟨by simp [countEv], fun _ _ => by simp [countEv], ?_⟩
      intro hpre
      rcases hpre with h | h
      · exact h
      · simp [countEv] at h
    | some t =>
      refine ⟨by simp [countEv, List.count_singleton], fun _ _ => by
        simp [countEv, List.count_singleton], ?_⟩
      intro hpre
      rcases hpre with h | h
      · exact selInterp_readSet_absent _ _ _ (hnt _) h
      · simp [countEv, List.count_singleton] at h
  · simp only [ht, ite_false]
    obtain ⟨ha, hb, _, hd⟩ := selProcessFds_read (List.range (c.maxFd + 1)) c s f hn
      (List.nodup_iff_count_le_one.mp (List.nodup_range _) f)
    refine ⟨ha, ?_, hd⟩
    intro hf hsub
    exact hb hf fun hmem => hf (hsub hmem)

/-- One cycle and ready-for-write deliveries to f, mirroring the read
direction. -/
theorem selCycle_write (c : SelCycle) (s : SelSys) (f : Nat)
    (hn : ∀ j k, Cmd.notifyWrite f ∉ c.cb j k)
    (hnt : ∀ k, Cmd.notifyWrite f ∉ c.timerCb k) :
    countEv .kAIO_READY_FOR_WRITE f (selCycle c s).2 ≤ 1 ∧
    (f ∉ s.anioWriteSet → c.readyWrite ⊆ s.anioWriteSet →
      countEv .kAIO_READY_FOR_WRITE f (selCycle c s).2 = 0) ∧
    ((f ∉ s.anioWriteSet ∨ 1 ≤ countEv .kAIO_READY_FOR_WRITE f (selCycle c s).2) →
      f ∉ (selCycle c s).1.anioWriteSet) := by
  unfold selCycle
  by_cases ht : c.isTimeout
  · simp only [ht, ite_true]
    cases c.firedTimer with
    | none =>
      refine ⟨by simp [countEv], fun _ _ => by simp [countEv], ?_⟩
      intro hpre
      rcases hpre with h | h
      · exact h
      · simp [countEv] at h
    | some t =>
      refine ⟨by simp [countEv, List.count_singleton], fun _ _ => by
        simp [countEv, List.count_singleton], ?_⟩
      intro hpre
      rcases hpre with h | h
      · exact selInterp_writeSet_absent _ _ _ (hnt _) h
      · simp [countEv, List.count_singleton] at h
  · simp only [ht, ite_false]
    obtain ⟨ha, hb, _, hd⟩ := selProcessFds_write (List.range (c.maxFd + 1)) c s f hn
      (List.nodup_iff_count_le_one.mp (List.nodup_range _) f)
    refine ⟨ha, ?_, hd⟩
    intro hf hsub
    exact hb hf fun hmem => hf (hsub hmem)

/-- Once f is disarmed for reading, a well-formed cycle sequence with no
re-arming delivers no data event to f and leaves it disarmed. -/
theorem selTrace_read_absent (cs : List SelCycle) (s : SelSys) (f : Nat)
    (hn : selNoRearmRead f cs) (hwf : selWF cs s = true) (hf : f ∉ s.anioReadSet) :
    countEv .kAIO_DATA_AVAILABLE f (selTrace cs s).2 = 0 ∧
    f ∉ (selTrace cs s).1.anioReadSet := by
  induction cs generalizing s with
  | nil => exact ⟨rfl, hf⟩
  | cons c rest ih =>
    simp only [selWF, Bool.and_eq_true, decide_eq_true_eq] at hwf
    obtain ⟨⟨hsubR, _⟩, hwfRest⟩ := hwf
    have hnC := hn c (List.mem_cons_self _ _)
    have hnRest : selNoRearmRead f rest := fun c2 h2 => hn c2 (List.mem_cons_of_mem _ h2)
    have hcyc := selCycle_read c s f hnC.1 hnC.2
    have h0 := hcyc.2.1 hf hsubR
    have habs : f ∉ (selCycle c s).1.anioReadSet := hcyc.2.2 (Or.inl hf)
    obtain ⟨hrest0, hrestAbs⟩ := ih (selCycle c s).1 hnRest hwfRest habs
    simp only [selTrace, countEv_append]
    exact ⟨by omega, hrestAbs⟩

/-- Once f is disarmed for writing, a well-formed cycle sequence with no
re-arming delivers no ready-for-write event to f and leaves it disarmed. -/
theorem selTrace_write_absent (cs : List SelCycle) (s : SelSys) (f : Nat)
    (hn : selNoRearmWrite f cs) (hwf : selWF cs s = true) (hf : f ∉ s.anioWriteSet) :
    countEv .kAIO_READY_FOR_WRITE f (selTrace cs s).2 = 0 ∧
    f ∉ (selTrace cs s).1.anioWriteSet := by
  induction cs generalizing s with
  | nil => exact ⟨rfl, hf⟩
  | cons c rest ih =>
    simp only [selWF, Bool.and_eq_true, decide_eq_true_eq] at hwf
    obtain ⟨⟨_, hsubW⟩, hwfRest⟩ := hwf
    have hnC := hn c (List.mem_cons_self _ _)
    have hnRest : selNoRearmWrite f rest := fun c2 h2 => hn c2 (List.mem_cons_of_mem _ h2)
    have hcyc := selCycle_write c s f hnC.1 hnC.2
    have h0 := hcyc.2.1 hf hsubW
    have habs : f ∉ (selCycle c s).1.anioWriteSet := hcyc.2.2 (Or.inl hf)
    obtain ⟨hrest0, hrestAbs⟩ := ih (selCycle c s).1 hnRest hwfRest habs
    simp only [selTrace, countEv_append]
    exact ⟨by omega, hrestAbs⟩

/-- Select backend, read direction of claim C4: without an explicit
re-arming call, a well-formed cycle sequence delivers at most one
kAIO_DATA_AVAILABLE event to any descriptor. -/
theorem selTrace_read_le_one (cs : List SelCycle) (s : SelSys) (f : Nat)
    (hn : selNoRearmRead f cs) (hwf : selWF cs s = true) :
    countEv .kAIO_DATA_AVAILABLE f (selTrace cs s).2 ≤ 1 := by
  induction cs generalizing s with
  | nil => simp [selTrace, countEv]
  | cons c rest ih =>
    simp only [selWF, Bool.and_eq_true, decide_eq_true_eq] at hwf
    obtain ⟨⟨hsubR, _⟩, hwfRest⟩ := hwf
    have hnC := hn c (List.mem_cons_self _ _)
    have hnRest : selNoRearmRead f rest := fun c2 h2 => hn c2 (List.mem_cons_of_mem _ h2)
    have hcyc := selCycle_read c s f hnC.1 hnC.2
    simp only [selTrace, countEv_append]
    by_cases hpos : 1 ≤ countEv .kAIO_DATA_AVAILABLE f (selCycle c s).2
    · have habs := hcyc.2.2 (Or.inr hpos)
      have hrest0 := (selTrace_read_absent rest (selCycle c s).1 f hnRest hwfRest habs).1
      have := hcyc.1
      omega
    · have := ih (selCycle c s).1 hnRest hwfRest
      omega

/-- Select backend, write direction of claim C4. -/
theorem selTrace_write_le_one (cs : List SelCycle) (s : SelSys) (f : Nat)
    (hn : selNoRearmWrite f cs) (hwf : selWF cs s = true) :
    countEv .kAIO_READY_FOR_WRITE f (selTrace cs s).2 ≤ 1 := by
  induction cs generalizing s with
  | nil => simp [selTrace, countEv]
  | cons c rest ih =>
    simp only [selWF, Bool.and_eq_true, decide_eq_true_eq] at hwf
    obtain ⟨⟨_, hsubW⟩, hwfRest⟩ := hwf
    have hnC := hn c (List.mem_cons_self _ _)
    have hnRest : selNoRearmWrite f rest := fun c2 h2 => hn c2 (List.mem_cons_of_mem _ h2)
    have hcyc := selCycle_write c s f hnC.1 hnC.2
    simp only [selTrace, countEv_append]
    by_cases hpos : 1 ≤ countEv .kAIO_READY_FOR_WRITE f (selCycle c s).2
    · have habs := hcyc.2.2 (Or.inr hpos)
      have hrest0 := (selTrace_write_absent rest (selCycle c s).1 f hnRest hwfRest habs).1
      have := hcyc.1
      omega
    · have := ih (selCycle c s).1 hnRest hwfRest
      omega

/-! ## One-shot arming on the kqueue backend (claim C4) -/

/-- The log of one kqueue dispatch iteration is the filter delivery alone
or followed by the EV_EOF connection-closed follow-up. -/
theorem kqProcessEvent_log_cases (ev : KqEvent) (s : KqSys) :
    (kqProcessEvent ev s).2 = kqMainLog ev ∨
    (kqProcessEvent ev s).2 = kqMainLog ev ++ [(.kAIO_CONNECTION_CLOSED, ev.handle)] := by
  obtain ⟨h, fil, eof, ty, cb⟩ := ev
  cases fil
  case EVFILT_READ =>
    by_cases h1 : ty = kAIO_TYPE_LISTENER
    · cases eof
      · left; simp [kqProcessEvent, kqMainLog, h1]
      · simp only [kqProcessEvent, kqMainLog, h1, ite_true]
        split
        · right; simp
        · left; simp
    · by_cases h2 : ty = kAIO_TYPE_CONNECTION
      · cases eof
        · left
          simp [kqProcessEvent, kqMainLog, h1, h2, kAIO_TYPE_CONNECTION, kAIO_TYPE_LISTENER]
        · simp only [kqProcessEvent, kqMainLog, h1, h2, kAIO_TYPE_CONNECTION,
            kAIO_TYPE_LISTENER, ite_true, ite_false,
            if_neg (by decide : ¬(2 : Nat) = 1)]
          split
          · right; simp
          · left; simp
      · cases eof
        · left; simp [kqProcessEvent, kqMainLog, h1, h2]
        · right; simp [kqProcessEvent, kqMainLog, h1, h2]
  case EVFILT_WRITE => left; cases eof <;> simp [kqProcessEvent, kqMainLog]
  case EVFILT_TIMER => left; cases eof <;> simp [kqProcessEvent, kqMainLog]
  case EVFILT_PROC => left; cases eof <;> simp [kqProcessEvent, kqMainLog]
  case EVFILT_SIGNAL => left; cases eof <;> simp [kqProcessEvent, kqMainLog]

/-- Data deliveries logged by one kqueue dispatch iteration: at most one,
and none unless the event is a read event on handle f. -/
theorem kqProcessEvent_count_da (ev : KqEvent) (s : KqSys) (f : Nat) :
    countEv .kAIO_DATA_AVAILABLE f (kqProcessEvent ev s).2 ≤ 1 ∧
    ((ev.handle ≠ f ∨ ev.filter ≠ .EVFILT_READ) →
      countEv .kAIO_DATA_AVAILABLE f (kqProcessEvent ev s).2 = 0) := by
  have hmain : countEv .kAIO_DATA_AVAILABLE f (kqMainLog ev) ≤ 1 ∧
      ((ev.handle ≠ f ∨ ev.filter ≠ .EVFILT_READ) →
        countEv .kAIO_DATA_AVAILABLE f (kqMainLog ev) = 0) := by
    obtain ⟨h, fil, eof, ty, cb⟩ := ev
    cases fil <;> simp only [kqMainLog] <;>
      first
        | · by_cases h1 : ty = kAIO_TYPE_LISTENER
            · simp [h1, countEv, List.count_singleton]
            · by_cases h2 : ty = kAIO_TYPE_CONNECTION
              · constructor
                · by_cases h3 : h = f <;>
                    simp [h1, h2, h3, kAIO_TYPE_CONNECTION, kAIO_TYPE_LISTENER,
                      countEv, List.count_singleton]
                · intro hpre
                  have h3 : h ≠ f := by
                    rcases hpre with hp | hp
                    · exact hp
                    · exact absurd rfl hp
                  simp [h1, h2, h3, kAIO_TYPE_CONNECTION, kAIO_TYPE_LISTENER,
                    countEv, List.count_singleton]
              · simp [h1, h2, countEv]
        | exact ⟨by simp [countEv, List.count_singleton], fun _ => by
            simp [countEv, List.count_singleton]⟩
  rcases kqProcessEvent_log_cases ev s with hlog | hlog <;> rw [hlog]
  · exact hmain
  · rw [countEv_append]
    have hz : countEv .kAIO_DATA_AVAILABLE f [(EvKind.kAIO_CONNECTION_CLOSED, ev.handle)] = 0 := by
      simp [countEv, List.count_singleton]
    exact ⟨by have := hmain.1; omega, fun hpre => by have := hmain.2 hpre; omega⟩

/-- Ready-for-write deliveries logged by one kqueue dispatch iteration: at
most one, and none unless the event is a write event on handle f. -/
theorem kqProcessEvent_count_rfw (ev : KqEvent) (s : KqSys) (f : Nat) :
    countEv .kAIO_READY_FOR_WRITE f (kqProcessEvent ev s).2 ≤ 1 ∧
    ((ev.handle ≠ f ∨ ev.filter ≠ .EVFILT_WRITE) →
      countEv .kAIO_READY_FOR_WRITE f (kqProcessEvent ev s).2 = 0) := by
  have hmain : countEv .kAIO_READY_FOR_WRITE f (kqMainLog ev) ≤ 1 ∧
      ((ev.handle ≠ f ∨ ev.filter ≠ .EVFILT_WRITE) →
        countEv .kAIO_READY_FOR_WRITE f (kqMainLog ev) = 0) := by
    obtain ⟨h, fil, eof, ty, cb⟩ := ev
    cases fil
    case EVFILT_READ =>
      simp only [kqMainLog]
      by_cases h1 : ty = kAIO_TYPE_LISTENER
      · simp [h1, countEv, List.count_singleton]
      · by_cases h2 : ty = kAIO_TYPE_CONNECTION
        · simp [h1, h2, kAIO_TYPE_CONNECTION, kAIO_TYPE_LISTENER, countEv,
            List.count_singleton]
        · simp [h1, h2, countEv]
    case EVFILT_WRITE =>
      simp only [kqMainLog]
      constructor
      · by_cases h3 : h = f <;> simp [h3, countEv, List.count_singleton]
      · intro hpre
        have h3 : h ≠ f := by
          rcases hpre with hp | hp
          · exact hp
          · exact absurd rfl hp
        simp [h3, countEv, List.count_singleton]
    case EVFILT_TIMER => exact ⟨by simp [kqMainLog, countEv, List.count_singleton], fun _ => by
      simp [kqMainLog, countEv, List.count_singleton]⟩
    case EVFILT_PROC => exact ⟨by simp [kqMainLog, countEv, List.count_singleton], fun _ => by
      simp [kqMainLog, countEv, List.count_singleton]⟩
    case EVFILT_SIGNAL => exact ⟨by simp [kqMainLog, countEv, List.count_singleton], fun _ => by
      simp [kqMainLog, countEv, List.count_singleton]⟩
  rcases kqProcessEvent_log_cases ev s with hlog | hlog <;> rw [hlog]
  · exact hmain
  · rw [countEv_append]
    have hz : countEv .kAIO_READY_FOR_WRITE f [(EvKind.kAIO_CONNECTION_CLOSED, ev.handle)] = 0 := by
      simp [countEv, List.count_singleton]
    exact ⟨by have := hmain.1; omega, fun hpre => by have := hmain.2 hpre; omega⟩

/-- A reactor-API call other than re-arming readability of f never
registers a read filter for f. -/
theorem kqApplyCmd_kqRead_absent (c : Cmd) (s : KqSys) (f : Nat)
    (hc : c ≠ Cmd.notifyRead f) (hf : f ∉ s.kqRead) :
    f ∉ (kqApplyCmd c s).kqRead := by
  cases c with
  | release h => intro hmem; exact hf (Finset.mem_of_mem_erase hmem)
  | notifyRead h =>
    intro hmem
    rcases Finset.mem_insert.mp hmem with h1 | h1
    · subst h1; exact hc rfl
    · exact hf h1
  | notifyWrite h => exact hf

/-- A callback not re-arming readability of f leaves f without a read
filter. -/
theorem kqInterp_kqRead_absent (cmds : List Cmd) (s : KqSys) (f : Nat)
    (hn : Cmd.notifyRead f ∉ cmds) (hf : f ∉ s.kqRead) :
    f ∉ (kqInterp cmds s).kqRead := by
  induction cmds generalizing s with
  | nil => exact hf
  | cons c cs ih =>
    rw [show kqInterp (c :: cs) s = kqInterp cs (kqApplyCmd c s) from rfl]
    refine ih _ (fun hmem => hn (List.mem_cons_of_mem _ hmem)) ?_
    refine kqApplyCmd_kqRead_absent c s f ?_ hf
    intro hc
    exact hn (by rw [hc]; exact List.mem_cons_self _ _)

/-- A reactor-API call other than re-arming writability of f never
registers a write filter for f. -/
theorem kqApplyCmd_kqWrite_absent (c : Cmd) (s : KqSys) (f : Nat)
    (hc : c ≠ Cmd.notifyWrite f) (hf : f ∉ s.kqWrite) :
    f ∉ (kqApplyCmd c s).kqWrite := by
  cases c with
  | release h => intro hmem; exact hf (Finset.mem_of_mem_erase hmem)
  | notifyRead h => exact hf
  | notifyWrite h =>
    intro hmem
    rcases Finset.mem_insert.mp hmem with h1 | h1
    · subst h1; exact hc rfl
    · exact hf h1

/-- A callback not re-arming writability of f leaves f without a write
filter. -/
theorem kqInterp_kqWrite_absent (cmds : List Cmd) (s : KqSys) (f : Nat)
    (hn : Cmd.notifyWrite f ∉ cmds) (hf : f ∉ s.kqWrite) :
    f ∉ (kqInterp cmds s).kqWrite := by
  induction cmds generalizing s with
  | nil => exact hf
  | cons c cs ih =>
    rw [show kqInterp (c :: cs) s = kqInterp cs (kqApplyCmd c s) from rfl]
    refine ih _ (fun hmem => hn (List.mem_cons_of_mem _ hmem)) ?_
    refine kqApplyCmd_kqWrite_absent c s f ?_ hf
    intro hc
    exact hn (by rw [hc]; exact List.mem_cons_self _ _)

/-- One kqueue dispatch iteration leaves f without a read filter when the
event was a read event on f (the EV_ONESHOT retrieval consumed it) or f had
none registered, provided no callback re-arms readability of f. -/
theorem kqProcessEvent_kqRead_absent (ev : KqEvent) (s : KqSys) (f : Nat)
    (hn : ∀ k, Cmd.notifyRead f ∉ ev.cb k)
    (hor : (ev.handle = f ∧ ev.filter = .EVFILT_READ) ∨ f ∉ s.kqRead) :
    f ∉ (kqProcessEvent ev s).1.kqRead := by
  obtain ⟨h, fil, eof, ty, cb⟩ := ev
  simp only at hn hor
  cases fil
  case EVFILT_READ =>
    have hbase : f ∉ s.kqRead.erase h := by
      rcases hor with ⟨he, _⟩ | hf
      · subst he; exact Finset.not_mem_erase _ _
      · intro hmem; exact hf (Finset.mem_of_mem_erase hmem)
    by_cases h1 : ty = kAIO_TYPE_LISTENER
    · cases eof <;> simp only [kqProcessEvent, h1, ite_true, ite_false, Bool.false_eq_true]
      · exact kqInterp_kqRead_absent _ _ _ (hn _) hbase
      · split
        · exact kqInterp_kqRead_absent _ _ _ (hn _)
            (kqInterp_kqRead_absent _ _ _ (hn _) hbase)
        · exact kqInterp_kqRead_absent _ _ _ (hn _) hbase
    · by_cases h2 : ty = kAIO_TYPE_CONNECTION
      · cases eof <;> simp only [kqProcessEvent, h1, h2, kAIO_TYPE_CONNECTION,
          kAIO_TYPE_LISTENER, ite_true, ite_false, Bool.false_eq_true,
          if_neg (by decide : ¬(2 : Nat) = 1)]
        · exact kqInterp_kqRead_absent _ _ _ (hn _) hbase
        · split
          · exact kqInterp_kqRead_absent _ _ _ (hn _)
              (kqInterp_kqRead_absent _ _ _ (hn _) hbase)
          · exact kqInterp_kqRead_absent _ _ _ (hn _) hbase
      · cases eof <;> simp only [kqProcessEvent, h1, h2, ite_true, ite_false,
          Bool.false_eq_true]
        · exact hbase
        · exact kqInterp_kqRead_absent _ _ _ (hn _) hbase
  case EVFILT_WRITE =>
    have hf : f ∉ s.kqRead := by
      rcases hor with ⟨_, he⟩ | hf
      · cases he
      · exact hf
    cases eof <;> simp only [kqProcessEvent, ite_true, ite_false, Bool.false_eq_true] <;>
      exact kqInterp_kqRead_absent _ _ _ (hn _) hf
  case EVFILT_TIMER =>
    have hf : f ∉ s.kqRead := by
      rcases hor with ⟨_, he⟩ | hf
      · cases he
      · exact hf
    cases eof <;> simp only [kqProcessEvent, ite_true, ite_false, Bool.false_eq_true] <;>
      exact kqInterp_kqRead_absent _ _ _ (hn _) hf
  case EVFILT_PROC =>
    have hf : f ∉ s.kqRead := by
      rcases hor with ⟨_, he⟩ | hf
      · cases he
      · exact hf
    cases eof <;> simp only [kqProcessEvent, ite_true, ite_false, Bool.false_eq_true] <;>
      exact kqInterp_kqRead_absent _ _ _ (hn _) hf
  case EVFILT_SIGNAL =>
    have hf : f ∉ s.kqRead := by
      rcases hor with ⟨_, he⟩ | hf
      · cases he
      · exact hf
    cases eof <;> simp only [kqProcessEvent, ite_true, ite_false, Bool.false_eq_true] <;>
      exact kqInterp_kqRead_absent _ _ _ (hn _) hf

/-- One kqueue dispatch iteration leaves f without a write filter when the
event was a write event on f or f had none registered, provided no callback
re-arms writability of f. -/
theorem kqProcessEvent_kqWrite_absent (ev : KqEvent) (s : KqSys) (f : Nat)
    (hn : ∀ k, Cmd.notifyWrite f ∉ ev.cb k)
    (hor : (ev.handle = f ∧ ev.filter = .EVFILT_WRITE) ∨ f ∉ s.kqWrite) :
    f ∉ (kqProcessEvent ev s).1.kqWrite := by
  obtain ⟨h, fil, eof, ty, cb⟩ := ev
  simp only at hn hor
  cases fil
  case EVFILT_READ =>
    have hf : f ∉ s.kqWrite := by
      rcases hor with ⟨_, he⟩ | hf
      · cases he
      · exact hf
    by_cases h1 : ty = kAIO_TYPE_LISTENER
    · cases eof <;> simp only [kqProcessEvent, h1, ite_true, ite_false, Bool.false_eq_true]
      · exact kqInterp_kqWrite_absent _ _ _ (hn _) hf
      · split
        · exact kqInterp_kqWrite_absent _ _ _ (hn _)
            (kqInterp_kqWrite_absent _ _ _ (hn _) hf)
        · exact kqInterp_kqWrite_absent _ _ _ (hn _) hf
    · by_cases h2 : ty = kAIO_TYPE_CONNECTION
      · cases eof <;> simp only [kqProcessEvent, h1, h2, kAIO_TYPE_CONNECTION,
          kAIO_TYPE_LISTENER, ite_true, ite_false, Bool.false_eq_true,
          if_neg (by decide : ¬(2 : Nat) = 1)]
        · exact kqInterp_kqWrite_absent _ _ _ (hn _) hf
        · split
          · exact kqInterp_kqWrite_absent _ _ _ (hn _)
              (kqInterp_kqWrite_absent _ _ _ (hn _) hf)
          · exact kqInterp_kqWrite_absent _ _ _ (hn _) hf
      · cases eof <;> simp only [kqProcessEvent, h1, h2, ite_true, ite_false,
          Bool.false_eq_true]
        · exact hf
        · exact kqInterp_kqWrite_absent _ _ _ (hn _) hf
  case EVFILT_WRITE =>
    have hbase : f ∉ s.kqWrite.erase h := by
      rcases hor with ⟨he, _⟩ | hf
      · subst he; exact Finset.not_mem_erase _ _
      · intro hmem; exact hf (Finset.mem_of_mem_erase hmem)
    cases eof <;> simp only [kqProcessEvent, ite_true, ite_false, Bool.false_eq_true] <;>
      exact kqInterp_kqWrite_absent _ _ _ (hn _) hbase
  case EVFILT_TIMER =>
    have hf : f ∉ s.kqWrite := by
      rcases hor with ⟨_, he⟩ | hf
      · cases he
      · exact hf
    cases eof <;> simp only [kqProcessEvent, ite_true, ite_false, Bool.false_eq_true] <;>
      exact kqInterp_kqWrite_absent _ _ _ (hn _) hf
  case EVFILT_PROC =>
    have hf : f ∉ s.kqWrite := by
      rcases hor with ⟨_, he⟩ | hf
      · cases he
      · exact hf
    cases eof <;> simp only [kqProcessEvent, ite_true, ite_false, Bool.false_eq_true] <;>
      exact kqInterp_kqWrite_absent _ _ _ (hn _) hf
  case EVFILT_SIGNAL =>
    have hf : f ∉ s.kqWrite := by
      rcases hor with ⟨_, he⟩ | hf
      · cases he
      · exact hf
    cases eof <;> simp only [kqProcessEvent, ite_true, ite_false, Bool.false_eq_true] <;>
      exact kqInterp_kqWrite_absent _ _ _ (hn _) hf

/-- Once f has no read filter, a well-formed kqueue event sequence with no
re-arming delivers no data event to f and leaves it unregistered. -/
theorem kqTrace_read_absent (evs : List KqEvent) (s : KqSys) (f : Nat)
    (hn : kqNoRearmRead f evs) (hwf : kqWF evs s = true) (hf : f ∉ s.kqRead) :
    countEv .kAIO_DATA_AVAILABLE f (kqRunTrace evs s).2 = 0 ∧
    f ∉ (kqRunTrace evs s).1.kqRead := by
  induction evs generalizing s with
  | nil => exact ⟨rfl, hf⟩
  | cons ev rest ih =>
    simp only [kqWF, Bool.and_eq_true] at hwf
    obtain ⟨hev, hwfRest⟩ := hwf
    have hnEv := hn ev (List.mem_cons_self _ _)
    have hnRest : kqNoRearmRead f rest := fun e2 h2 => hn e2 (List.mem_cons_of_mem _ h2)
    have h0 : countEv .kAIO_DATA_AVAILABLE f (kqProcessEvent ev s).2 = 0 := by
      apply (kqProcessEvent_count_da ev s f).2
      by_cases hh : ev.handle = f
      · right
        intro hfil
        rw [hfil] at hev
        simp only [decide_eq_true_eq] at hev
        rw [hh] at hev
        exact hf hev
      · left; exact hh
    have habs : f ∉ (kqProcessEvent ev s).1.kqRead :=
      kqProcessEvent_kqRead_absent ev s f hnEv (Or.inr hf)
    obtain ⟨hrest0, hrestAbs⟩ := ih (kqProcessEvent ev s).1 hnRest hwfRest habs
    simp only [kqRunTrace, countEv_append]
    exact ⟨by omega, hrestAbs⟩

/-- Once f has no write filter, a well-formed kqueue event sequence with no
re-arming delivers no ready-for-write event to f and leaves it
unregistered. -/
theorem kqTrace_write_absent (evs : List KqEvent) (s : KqSys) (f : Nat)
    (hn : kqNoRearmWrite f evs) (hwf : kqWF evs s = true) (hf : f ∉ s.kqWrite) :
    countEv .kAIO_READY_FOR_WRITE f (kqRunTrace evs s).2 = 0 ∧
    f ∉ (kqRunTrace evs s).1.kqWrite := by
  induction evs generalizing s with
  | nil => exact ⟨rfl, hf⟩
  | cons ev rest ih =>
    simp only [kqWF, Bool.and_eq_true] at hwf
    obtain ⟨hev, hwfRest⟩ := hwf
    have hnEv := hn ev (List.mem_cons_self _ _)
    have hnRest : kqNoRearmWrite f rest := fun e2 h2 => hn e2 (List.mem_cons_of_mem _ h2)
    have h0 : countEv .kAIO_READY_FOR_WRITE f (kqProcessEvent ev s).2 = 0 := by
      apply (kqProcessEvent_count_rfw ev s f).2
      by_cases hh : ev.handle = f
      · right
        intro hfil
        rw [hfil] at hev
        simp only [decide_eq_true_eq] at hev
        rw [hh] at hev
        exact hf hev
      · left; exact hh
    have habs : f ∉ (kqProcessEvent ev s).1.kqWrite :=
      kqProcessEvent_kqWrite_absent ev s f hnEv (Or.inr hf)
    obtain ⟨hrest0, hrestAbs⟩ := ih (kqProcessEvent ev s).1 hnRest hwfRest habs
    simp only [kqRunTrace, countEv_append]
    exact ⟨by omega, hrestAbs⟩

/-- Kqueue backend, read direction of claim C4: without an explicit
re-arming call, a well-formed event sequence delivers at most one
kAIO_DATA_AVAILABLE event to any handle. -/
theorem kqTrace_read_le_one (evs : List KqEvent) (s : KqSys) (f : Nat)
    (hn : kqNoRearmRead f evs) (hwf : kqWF evs s = true) :
    countEv .kAIO_DATA_AVAILABLE f (kqRunTrace evs s).2 ≤ 1 := by
  induction evs generalizing s with
  | nil => simp [kqRunTrace, countEv]
  | cons ev rest ih =>
    simp only [kqWF, Bool.and_eq_true] at hwf
    obtain ⟨hev, hwfRest⟩ := hwf
    have hnEv := hn ev (List.mem_cons_self _ _)
    have hnRest : kqNoRearmRead f rest := fun e2 h2 => hn e2 (List.mem_cons_of_mem _ h2)
    have hcnt := kqProcessEvent_count_da ev s f
    simp only [kqRunTrace, countEv_append]
    by_cases hpos : 1 ≤ countEv .kAIO_DATA_AVAILABLE f (kqProcessEvent ev s).2
    · have hhf : ev.handle = f ∧ ev.filter = .EVFILT_READ := by
        by_contra hc
        have h2 : ev.handle ≠ f ∨ ev.filter ≠ .EVFILT_READ := by tauto
        have := hcnt.2 h2
        omega
      have habs : f ∉ (kqProcessEvent ev s).1.kqRead :=
        kqProcessEvent_kqRead_absent ev s f hnEv (Or.inl hhf)
      have hrest0 := (kqTrace_read_absent rest (kqProcessEvent ev s).1 f hnRest
        hwfRest habs).1
      have := hcnt.1
      omega
    · have := ih (kqProcessEvent ev s).1 hnRest hwfRest
      omega

/-- Kqueue backend, write direction of claim C4. -/
theorem kqTrace_write_le_one (evs : List KqEvent) (s : KqSys) (f : Nat)
    (hn : kqNoRearmWrite f evs) (hwf : kqWF evs s = true) :
    countEv .kAIO_READY_FOR_WRITE f (kqRunTrace evs s).2 ≤ 1 := by
  induction evs generalizing s with
  | nil => simp [kqRunTrace, countEv]
  | cons ev rest ih =>
    simp only [kqWF, Bool.and_eq_true] at hwf
    obtain ⟨hev, hwfRest⟩ := hwf
    have hnEv := hn ev (List.mem_cons_self _ _)
    have hnRest : kqNoRearmWrite f rest := fun e2 h2 => hn e2 (List.mem_cons_of_mem _ h2)
    have hcnt := kqProcessEvent_count_rfw ev s f
    simp only [kqRunTrace, countEv_append]
    by_cases hpos : 1 ≤ countEv .kAIO_READY_FOR_WRITE f (kqProcessEvent ev s).2
    · have hhf : ev.handle = f ∧ ev.filter = .EVFILT_WRITE := by
        by_contra hc
        have h2 : ev.handle ≠ f ∨ ev.filter ≠ .EVFILT_WRITE := by tauto
        have := hcnt.2 h2
        omega
      have habs : f ∉ (kqProcessEvent ev s).1.kqWrite :=
        kqProcessEvent_kqWrite_absent ev s f hnEv (Or.inl hhf)
      have hrest0 := (kqTrace_write_absent rest (kqProcessEvent ev s).1 f hnRest
        hwfRest habs).1
      have := hcnt.1
      omega
    · have := ih (kqProcessEvent ev s).1 hnRest hwfRest
      omega

/-- Claim C4: on both backends, read and write interest of a connection is
disarmed before the corresponding callback runs (the state a connection
callback observes has its descriptor already removed from the armed set and
the notify flag already cleared), and one delivery consumes the arming:
over any well-formed trace in which no callback re-arms the interest of
descriptor f, at most one kAIO_DATA_AVAILABLE (respectively
kAIO_READY_FOR_WRITE) event is delivered to f. -/
theorem c4_one_shot_interest :
    (∀ i s, i ∉ (selConnReadPre i s).anioReadSet ∧ i ∉ (selConnReadPre i s).notifyOnRead) ∧
    (∀ i s, i ∉ (selWritePre i s).anioWriteSet ∧ i ∉ (selWritePre i s).notifyOnWrite) ∧
    (∀ i s, i ∉ (kqConnReadPre i s).kqRead ∧ i ∉ (kqConnReadPre i s).notifyOnRead) ∧
    (∀ i s, i ∉ (kqWritePre i s).kqWrite ∧ i ∉ (kqWritePre i s).notifyOnWrite) ∧
    (∀ f cs s, selNoRearmRead f cs → selWF cs s = true →
      countEv .kAIO_DATA_AVAILABLE f (selTrace cs s).2 ≤ 1) ∧
    (∀ f cs s, selNoRearmWrite f cs → selWF cs s = true →
      countEv .kAIO_READY_FOR_WRITE f (selTrace cs s).2 ≤ 1) ∧
    (∀ f evs s, kqNoRearmRead f evs → kqWF evs s = true →
      countEv .kAIO_DATA_AVAILABLE f (kqRunTrace evs s).2 ≤ 1) ∧
    (∀ f evs s, kqNoRearmWrite f evs → kqWF evs s = true →
      countEv .kAIO_READY_FOR_WRITE f (kqRunTrace evs s).2 ≤ 1) :=
  ⟨fun i s => ⟨Finset.not_mem_erase i s.anioReadSet, Finset.not_mem_erase i s.notifyOnRead⟩,
   fun i s => ⟨Finset.not_mem_erase i s.anioWriteSet, Finset.not_mem_erase i s.notifyOnWrite⟩,
   fun i s => ⟨Finset.not_mem_erase i s.kqRead, Finset.not_mem_erase i s.notifyOnRead⟩,
   fun i s => ⟨Finset.not_mem_erase i s.kqWrite, Finset.not_mem_erase i s.notifyOnWrite⟩,
   fun f cs s => selTrace_read_le_one cs s f,
   fun f cs s => selTrace_write_le_one cs s f,
   fun f evs s => kqTrace_read_le_one evs s f,
   fun f evs s => kqTrace_write_le_one evs s f⟩

/-- Witness for claim C4: a concrete one-cycle select trace and a concrete
one-event kqueue trace, both delivering to connection descriptor 1 whose
callbacks never re-arm, satisfy the at-most-one bounds. -/
theorem c4_one_shot_witness :
    countEv .kAIO_DATA_AVAILABLE 1 (selTrace [c4Cycle] c4Sys).2 ≤ 1 ∧
    countEv .kAIO_DATA_AVAILABLE 1 (kqRunTrace [c4KqEvent] c4KqSys).2 ≤ 1 :=
  ⟨c4_one_shot_interest.2.2.2.2.1 1 [c4Cycle] c4Sys
    (by
      intro c hc
      rw [List.mem_singleton] at hc
      subst hc
      exact ⟨fun i k => List.not_mem_nil _, fun k => List.not_mem_nil _⟩)
    (by decide),
   c4_one_shot_interest.2.2.2.2.2.2.1 1 [c4KqEvent] c4KqSys
    (by
      intro e he
      rw [List.mem_singleton] at he
      subst he
      exact fun k => List.not_mem_nil _)
    (by decide)⟩

/-- Witness for claim C10: re-enabling the sole armed timer 1 produces the
self-loop and both scans are still running after 37 steps. -/
theorem c10_reenable_witness :
    (AsyncIO_EnableTimer_heap 1 5 100 c10Heap).next_timer 1 = some 1 ∧
    walkEnds (AsyncIO_EnableTimer_heap 1 5 100 c10Heap).next_timer
      (AsyncIO_EnableTimer_heap 1 5 100 c10Heap).enabled_timers 37 = false ∧
    disableScanEnds (AsyncIO_EnableTimer_heap 1 5 100 c10Heap).next_timer 2 1 37 = false :=
  ⟨(c10_reenable_head_timer_creates_cycle c10Heap 1 5 100 rfl).1,
   (c10_reenable_head_timer_creates_cycle c10Heap 1 5 100 rfl).2.2.2.1 37,
   (c10_reenable_head_timer_creates_cycle c10Heap 1 5 100 rfl).2.2.2.2 2 (by decide) 37⟩

end AsyncSpec
